import Mathlib

/-! go-mongo-aggregation: the read path of `main.go`

`main.go` stores one podcast and two episodes in a MongoDB database and reads
them back three ways: `getData` (a plain `Find`), `getDataAggregated` (a
`$lookup` + `$unwind` pipeline decoded into generic `bson.M` documents) and
`getDataPodcastEpisode` (the same pipeline decoded into `PodcastEpisode`).

The program itself is translated function by function (`addData`, `getData`,
`getDataAggregated`, `getDataPodcastEpisode`).  The MongoDB driver and server it
calls are not part of the repository; they appear here as an explicit, executable
model of the behaviour the program relies on:

* BSON values and ordered documents (`Bson`, `Doc`);
* struct encoding with the `bson:"name,omitempty"` tags of the three structs;
* struct decoding element by element, leaving absent fields at their zero value;
* `InsertOne` / `InsertMany`, `Find`, `Aggregate` with the `$lookup` and
  `$unwind` stages, and the cursor operations `Next` / `Decode` / `All`.

A process that ends in `log.Fatal` or `panic` is modelled as `Except.error`; the
sequence the function hands to `spew.Dump` is its result.
-/

namespace MongoAggregation

/-! ## BSON values -/

/-- A `primitive.ObjectID`, a 12-byte value, kept as the number it spells. -/
abbrev ObjectID := Nat

/-- The zero value of `primitive.ObjectID` (`primitive.NilObjectID`). -/
def NilObjectID : ObjectID := 0

/-- The BSON values the program and its collections are modelled with.  An
`int32` carries the integer it holds, which lies in the 32-bit range; 64-bit
integers, doubles and the other BSON types are outside the model. -/
inductive Bson where
  | objectID (id : ObjectID)
  | str (s : String)
  | int32 (n : Int)
  | bool (b : Bool)
  | null
  | arr (items : List Bson)
  | doc (fields : List (String × Bson))
  deriving Repr, Inhabited

/-- An ordered BSON document (`bson.D`): a list of key/value elements. -/
abbrev Doc := List (String × Bson)

mutual
/-- Structural equality of BSON values, as a boolean test. -/
def Bson.beq : Bson → Bson → Bool
  | .objectID a, .objectID b => decide (a = b)
  | .str a, .str b => decide (a = b)
  | .int32 a, .int32 b => decide (a = b)
  | .bool a, .bool b => decide (a = b)
  | .null, .null => true
  | .arr xs, .arr ys => Bson.beqItems xs ys
  | .doc xs, .doc ys => Bson.beqFields xs ys
  | _, _ => false
/-- Structural equality of two arrays of BSON values. -/
def Bson.beqItems : List Bson → List Bson → Bool
  | [], [] => true
  | x :: xs, y :: ys => Bson.beq x y && Bson.beqItems xs ys
  | _, _ => false
/-- Structural equality of two element lists. -/
def Bson.beqFields : List (String × Bson) → List (String × Bson) → Bool
  | [], [] => true
  | (k, x) :: xs, (l, y) :: ys => decide (k = l) && Bson.beq x y && Bson.beqFields xs ys
  | _, _ => false
end

/-! ## Documents -/

/-- The value of the first element of `d` named `key`, if there is one. -/
def getField : Doc → String → Option Bson
  | [], _ => none
  | (k, v) :: rest, key => if k = key then some v else getField rest key

/-- Write `v` under `key`: an element already named `key` is overwritten where
it stands, otherwise the element is added at the end. -/
def setField : Doc → String → Bson → Doc
  | [], key, v => [(key, v)]
  | (k, x) :: rest, key, v =>
      if k = key then (key, v) :: rest else (k, x) :: setField rest key v

/-- Drop every element named `key`. -/
def removeField (d : Doc) (key : String) : Doc :=
  d.filter (fun kv => decide (kv.1 ≠ key))

/-! ## The three structs of `main.go` -/

/-- Ways in which an operation of the program ends the process. -/
inductive Error where
  /-- a request or a cursor failed at the transport level -/
  | connection
  /-- the server refused an insert whose `_id` is already in the collection -/
  | duplicateKey
  /-- the server rejected an aggregation pipeline -/
  | pipeline
  /-- a BSON value could not be decoded into the Go field it is meant for -/
  | decode
  /-- the type assertion `result.InsertedID.(primitive.ObjectID)` failed -/
  | typeAssertion
  deriving DecidableEq, Repr

/-- The struct `Podcast`; the default of each field is its Go zero value, so
`{}` is `Podcast{}`.  A nil and an empty `Tags` slice are both the empty list. -/
structure Podcast where
  ID : ObjectID := NilObjectID
  Title : String := ""
  Author : String := ""
  Tags : List String := []
  deriving DecidableEq, Repr

/-- The struct `Episode`; `{}` is `Episode{}`. -/
structure Episode where
  ID : ObjectID := NilObjectID
  Podcast : ObjectID := NilObjectID
  Title : String := ""
  Description : String := ""
  Duration : Int := 0
  deriving DecidableEq, Repr

/-- The struct `PodcastEpisode`; `{}` is `PodcastEpisode{}`. -/
structure PodcastEpisode where
  ID : ObjectID := NilObjectID
  Podcast : Podcast := {}
  Title : String := ""
  Description : String := ""
  Duration : Int := 0
  deriving DecidableEq, Repr

/-! ## Encoding: the `bson:"name,omitempty"` tags -/

/-- One struct field tagged `omitempty`: no element when the field holds its
zero value, the element `key: v` otherwise. -/
def omitempty (key : String) (isZero : Bool) (v : Bson) : Doc :=
  if isZero then [] else [(key, v)]

/-- The document a `Podcast` is encoded to: the fields in declaration order
under their tag names, each left out when zero. -/
def Podcast.marshal (p : Podcast) : Doc :=
  omitempty "_id" (decide (p.ID = NilObjectID)) (.objectID p.ID)
    ++ omitempty "title" (decide (p.Title = "")) (.str p.Title)
    ++ omitempty "author" (decide (p.Author = "")) (.str p.Author)
    ++ omitempty "tags" p.Tags.isEmpty (.arr (p.Tags.map Bson.str))

/-- The document an `Episode` is encoded to. -/
def Episode.marshal (e : Episode) : Doc :=
  omitempty "_id" (decide (e.ID = NilObjectID)) (.objectID e.ID)
    ++ omitempty "podcast" (decide (e.Podcast = NilObjectID)) (.objectID e.Podcast)
    ++ omitempty "title" (decide (e.Title = "")) (.str e.Title)
    ++ omitempty "description" (decide (e.Description = "")) (.str e.Description)
    ++ omitempty "duration" (decide (e.Duration = 0)) (.int32 e.Duration)

/-! ## Decoding

A struct is decoded element by element, in document order, as the default
codecs of the Go driver (v1.17) do it.  An element whose key names a field is
decoded into that field; any other element is skipped; a field no element names
keeps the value it had, so a field absent from the document is not an error.
The first element that cannot be decoded stops the decoding with an error, and
the fields written before it keep what was written.

A key names a field when it is the tag name of the field, or when its lower-case
form is.  A field accepts a value of its own BSON type and `null` (which gives
the zero value); an integer field also accepts a boolean, a string field an
ObjectID (as its 24 hexadecimal digits), and an ObjectID field a string of 24
hexadecimal digits or of 12 bytes.  Every other combination is a decode error. -/

/-- The lower-case form of a character, as `strings.ToLower` gives it, for every
character whose lower-case form is an ASCII letter: the letters `A` to `Z`, the
dotted capital I (U+0130) and the Kelvin sign (U+212A).  Other characters are
left as they are; their true lower-case form is not an ASCII letter either, so
this cannot change whether a lower-cased key equals a tag name. -/
def lowerChar (c : Char) : Char :=
  if 65 ≤ c.toNat ∧ c.toNat ≤ 90 then Char.ofNat (c.toNat + 32)
  else if c.toNat = 0x130 then 'i'
  else if c.toNat = 0x212A then 'k'
  else c

/-- The call `strings.ToLower(s)`, as far as comparison with a tag name goes. -/
def ToLower (s : String) : String :=
  String.mk (s.data.map lowerChar)

/-- Whether an element key names the struct field tagged `tag`: the struct codec
looks the key up as it is and, when that finds no field, in lower case.  The tag
names of the three structs are all in lower case. -/
def keyNames (key tag : String) : Bool :=
  decide (key = tag) || decide (ToLower key = tag)

/-- One hexadecimal digit, in lower case. -/
def hexDigit (n : Nat) : Char :=
  if n < 10 then Char.ofNat (48 + n) else Char.ofNat (87 + n)

/-- The last `k` hexadecimal digits of `n`, most significant first. -/
def hexDigits : Nat → Nat → List Char
  | 0, _ => []
  | k + 1, n => hexDigits k (n / 16) ++ [hexDigit (n % 16)]

/-- The method `ObjectID.Hex`: the 12 bytes as 24 hexadecimal digits. -/
def ObjectIDHex (id : ObjectID) : String :=
  String.mk (hexDigits 24 id)

/-- The value of a hexadecimal digit, in either case. -/
def hexValue (c : Char) : Option Nat :=
  if 48 ≤ c.toNat ∧ c.toNat ≤ 57 then some (c.toNat - 48)
  else if 97 ≤ c.toNat ∧ c.toNat ≤ 102 then some (c.toNat - 87)
  else if 65 ≤ c.toNat ∧ c.toNat ≤ 70 then some (c.toNat - 55)
  else none

/-- The number a list of hexadecimal digits spells, after the digits `acc`. -/
def hexNumber : List Char → Nat → Option Nat
  | [], acc => some acc
  | c :: cs, acc =>
      match hexValue c with
      | some d => hexNumber cs (16 * acc + d)
      | none => none

/-- The function `primitive.ObjectIDFromHex`: exactly 24 hexadecimal digits. -/
def ObjectIDFromHex (s : String) : Option ObjectID :=
  if s.data.length = 24 then hexNumber s.data 0 else none

/-- The UTF-8 bytes of a character. -/
def utf8Bytes (c : Char) : List Nat :=
  if c.toNat < 0x80 then [c.toNat]
  else if c.toNat < 0x800 then [0xC0 + c.toNat / 64, 0x80 + c.toNat % 64]
  else if c.toNat < 0x10000 then
    [0xE0 + c.toNat / 4096, 0x80 + c.toNat / 64 % 64, 0x80 + c.toNat % 64]
  else
    [0xF0 + c.toNat / 262144, 0x80 + c.toNat / 4096 % 64, 0x80 + c.toNat / 64 % 64,
      0x80 + c.toNat % 64]

/-- The ObjectID a string under an ObjectID field is decoded to: the one its 24
hexadecimal digits spell, or else the one its 12 bytes are. -/
def ObjectIDFromString (s : String) : Option ObjectID :=
  match ObjectIDFromHex s with
  | some id => some id
  | none =>
      if (s.data.flatMap utf8Bytes).length = 12 then
        some ((s.data.flatMap utf8Bytes).foldl (fun acc b => 256 * acc + b) 0)
      else none

/-- Decode a value into a `primitive.ObjectID` field. -/
def decodeObjectID : Bson → Except Error ObjectID
  | .objectID id => .ok id
  | .str s =>
      match ObjectIDFromString s with
      | some id => .ok id
      | none => .error .decode
  | .null => .ok NilObjectID
  | _ => .error .decode

/-- Decode a value into a `string` field. -/
def decodeString : Bson → Except Error String
  | .str s => .ok s
  | .objectID id => .ok (ObjectIDHex id)
  | .null => .ok ""
  | _ => .error .decode

/-- Decode a value into an `int32` field. -/
def decodeInt32 : Bson → Except Error Int
  | .int32 n => .ok n
  | .bool b => .ok (if b then 1 else 0)
  | .null => .ok 0
  | _ => .error .decode

/-- Decode the items of an array into strings, failing at the first item that
cannot be decoded into one. -/
def decodeStringItems : List Bson → Except Error (List String)
  | [] => .ok []
  | x :: xs =>
      match decodeString x with
      | .error err => .error err
      | .ok s =>
          match decodeStringItems xs with
          | .error err => .error err
          | .ok ss => .ok (s :: ss)

/-- Decode a value into a `[]string` field. -/
def decodeStrings : Bson → Except Error (List String)
  | .arr items => decodeStringItems items
  | .null => .ok []
  | _ => .error .decode

/-- Decode the elements of a document one after the other into `val`, with
`field` decoding one element.  The result is the value left behind and the
error that stopped the decoding, if any. -/
def decodeElements {α : Type} (field : α → String → Bson → Except Error α) :
    Doc → α → α × Option Error
  | [], val => (val, none)
  | (k, v) :: rest, val =>
      match field val k v with
      | .ok val' => decodeElements field rest val'
      | .error err => (val, some err)

/-- Decode a document into `val` and report the error instead of the value when
there is one. -/
def decodeStruct {α : Type} (field : α → String → Bson → Except Error α)
    (d : Doc) (val : α) : Except Error α :=
  match decodeElements field d val with
  | (val', none) => .ok val'
  | (_, some err) => .error err

/-- Decode one element into the `Podcast` field its key names. -/
def Podcast.decodeField (p : Podcast) (key : String) (v : Bson) : Except Error Podcast :=
  if keyNames key "_id" then (decodeObjectID v).map (fun x => { p with ID := x })
  else if keyNames key "title" then (decodeString v).map (fun x => { p with Title := x })
  else if keyNames key "author" then (decodeString v).map (fun x => { p with Author := x })
  else if keyNames key "tags" then (decodeStrings v).map (fun x => { p with Tags := x })
  else .ok p

/-- Decode one element into the `Episode` field its key names. -/
def Episode.decodeField (e : Episode) (key : String) (v : Bson) : Except Error Episode :=
  if keyNames key "_id" then (decodeObjectID v).map (fun x => { e with ID := x })
  else if keyNames key "podcast" then (decodeObjectID v).map (fun x => { e with Podcast := x })
  else if keyNames key "title" then (decodeString v).map (fun x => { e with Title := x })
  else if keyNames key "description" then (decodeString v).map (fun x => { e with Description := x })
  else if keyNames key "duration" then (decodeInt32 v).map (fun x => { e with Duration := x })
  else .ok e

/-- Decode a value into a field of struct type `Podcast`: an embedded document
is decoded into the field, `null` resets it to the zero value. -/
def decodePodcastValue (into : Podcast) : Bson → Except Error Podcast
  | .doc fields => decodeStruct Podcast.decodeField fields into
  | .null => .ok {}
  | _ => .error .decode

/-- Decode one element into the `PodcastEpisode` field its key names. -/
def PodcastEpisode.decodeField (e : PodcastEpisode) (key : String) (v : Bson) :
    Except Error PodcastEpisode :=
  if keyNames key "_id" then (decodeObjectID v).map (fun x => { e with ID := x })
  else if keyNames key "podcast" then (decodePodcastValue e.Podcast v).map (fun x => { e with Podcast := x })
  else if keyNames key "title" then (decodeString v).map (fun x => { e with Title := x })
  else if keyNames key "description" then (decodeString v).map (fun x => { e with Description := x })
  else if keyNames key "duration" then (decodeInt32 v).map (fun x => { e with Duration := x })
  else .ok e

/-- The call `cursor.Decode(&episode)` on a freshly declared `var episode Episode`:
the value left in `episode` and the error `Decode` returns. -/
def Episode.Decode (d : Doc) : Episode × Option Error :=
  decodeElements Episode.decodeField d {}

/-- Decode a document into a new `PodcastEpisode`. -/
def PodcastEpisode.Decode (d : Doc) : Except Error PodcastEpisode :=
  decodeStruct PodcastEpisode.decodeField d {}

/-- Decode a document into a new `Podcast`. -/
def Podcast.Decode (d : Doc) : Except Error Podcast :=
  decodeStruct Podcast.decodeField d {}

/-- Decode a document into a `bson.M`.  A generic document takes every element as
it is, so this never fails.  The model keeps the elements as the ordered list
they come in, where the Go map has no order and one value per key; the two
differ only for a document that repeats a key. -/
def decodeM (d : Doc) : Except Error Doc := .ok d

/-- Decode every document of a batch, stopping at the first one that fails. -/
def decodeAll {α : Type} (decode : Doc → Except Error α) : List Doc → Except Error (List α)
  | [] => .ok []
  | d :: ds =>
      match decode d with
      | .error err => .error err
      | .ok x =>
          match decodeAll decode ds with
          | .error err => .error err
          | .ok xs => .ok (x :: xs)

/-! ## The database and the driver -/

/-- The database `quickstart`: the documents of its two collections, in the
order the server returns them. -/
structure Database where
  podcasts : List Doc := []
  episodes : List Doc := []
  deriving Repr

/-- The documents of the collection called `name`; a collection that was never
written to is empty. -/
def Database.documents (db : Database) (name : String) : List Doc :=
  if name = "podcasts" then db.podcasts
  else if name = "episodes" then db.episodes
  else []

/-- A `*mongo.Collection`: a database and the name of one of its collections. -/
structure Collection where
  database : Database
  name : String

/-- The handle `database.Collection(name)`. -/
def Database.Collection (db : Database) (name : String) : Collection :=
  { database := db, name := name }

/-- The documents a collection handle points at. -/
def Collection.documents (c : Collection) : List Doc :=
  c.database.documents c.name

/-- What goes wrong between the program and the server during one operation:
whether the request itself fails, and whether the cursor breaks after it has
yielded a number of documents. -/
structure Faults where
  request : Bool := false
  cursor : Option Nat := none

/-- A `*mongo.Cursor`: the documents `Next` yields before it returns false, and
the error `Err` reports afterwards when the iteration was cut short. -/
structure Cursor where
  yields : List Doc
  err : Option Error

/-- The cursor over a result set: all of it, or its first `k` documents followed
by a transport error when the cursor breaks after `k` documents. -/
def openCursor (net : Faults) (docs : List Doc) : Cursor :=
  match net.cursor with
  | some k =>
      if k < docs.length then { yields := docs.take k, err := some Error.connection }
      else { yields := docs, err := none }
  | none => { yields := docs, err := none }

/-- The value of a field for matching purposes: a field the document does not
have counts as `null`. -/
def fieldOrNull (d : Doc) (key : String) : Bson :=
  (getField d key).getD Bson.null

/-- The equality match of a query: the stored value equals the queried one, or
is an array with an item equal to it. -/
def queryMatch (stored queried : Bson) : Bool :=
  Bson.beq stored queried ||
    (match stored with
     | .arr items => items.any (fun x => Bson.beq x queried)
     | _ => false)

/-- Whether a document satisfies an equality filter: every element of the filter
is matched by the field of the same name. -/
def filterMatches (filter : Doc) (d : Doc) : Bool :=
  filter.all (fun kv => queryMatch (fieldOrNull d kv.1) kv.2)

/-- The call `collection.Find(ctx, filter)`. -/
def Find (net : Faults) (c : Collection) (filter : Doc) : Except Error Cursor :=
  if net.request then .error Error.connection
  else .ok (openCursor net (c.documents.filter (filterMatches filter)))

/-- An aggregation stage the server understands. -/
inductive Stage where
  | lookup (fromColl localField foreignField asField : String)
  | unwind (path : String) (preserveNullAndEmptyArrays : Bool)
  deriving DecidableEq, Repr

/-- The field a path such as `"$podcast"` names. -/
def fieldPath (s : String) : Option String :=
  match s.data with
  | '$' :: rest => some (String.mk rest)
  | _ => none

/-- Read a stage document as the server does: one element, `$lookup` or
`$unwind`, whose value is a document of options. -/
def parseStage : Doc → Option Stage
  | [(op, .doc spec)] =>
      if op = "$lookup" then
        match getField spec "from", getField spec "localField",
          getField spec "foreignField", getField spec "as" with
        | some (.str f), some (.str l), some (.str g), some (.str a) => some (Stage.lookup f l g a)
        | _, _, _, _ => none
      else if op = "$unwind" then
        match getField spec "path", getField spec "preserveNullAndEmptyArrays" with
        | some (.str p), some (.bool b) => (fieldPath p).map (fun f => Stage.unwind f b)
        | some (.str p), none => (fieldPath p).map (fun f => Stage.unwind f false)
        | _, _ => none
      else none
  | _ => none

/-- Read a whole pipeline; one unreadable stage makes the pipeline unreadable. -/
def parsePipeline : List Doc → Option (List Stage)
  | [] => some []
  | d :: ds =>
      match parseStage d, parsePipeline ds with
      | some st, some sts => some (st :: sts)
      | _, _ => none

/-- The join condition of `$lookup`: the foreign value matches the local value,
or one of its items when the local value is an array.  Absent fields have been
replaced by `null` on both sides. -/
def joinMatches (localValue foreignValue : Bson) : Bool :=
  queryMatch foreignValue localValue ||
    (match localValue with
     | .arr items => items.any (fun x => queryMatch foreignValue x)
     | _ => false)

/-- The stage `$lookup` on one input document: the matching documents of the
foreign collection, as an array, written under the field `asField`. -/
def lookupDoc (db : Database) (fromColl localField foreignField asField : String)
    (d : Doc) : Doc :=
  setField d asField
    (Bson.arr (((db.documents fromColl).filter
      (fun x => joinMatches (fieldOrNull d localField) (fieldOrNull x foreignField))).map Bson.doc))

/-- The stage `$unwind` on one input document: one output document per item of
the array under `path`, with the item in place of the array.  A document whose
field is absent, `null` or an empty array gives no output, unless
`preserveNullAndEmptyArrays` is set; a value that is not an array counts as a
single item. -/
def unwindDoc (path : String) (preserveNullAndEmptyArrays : Bool) (d : Doc) : List Doc :=
  match getField d path with
  | none => if preserveNullAndEmptyArrays then [d] else []
  | some .null => if preserveNullAndEmptyArrays then [d] else []
  | some (.arr []) => if preserveNullAndEmptyArrays then [removeField d path] else []
  | some (.arr items) => items.map (fun x => setField d path x)
  | some _ => [d]

/-- Run one stage over the documents the previous stage produced. -/
def Stage.run (db : Database) : Stage → List Doc → List Doc
  | .lookup f l g a, docs => docs.map (lookupDoc db f l g a)
  | .unwind p keep, docs => docs.flatMap (unwindDoc p keep)

/-- The call `collection.Aggregate(ctx, pipeline)`. -/
def Aggregate (net : Faults) (c : Collection) (pipeline : List Doc) : Except Error Cursor :=
  if net.request then .error Error.connection
  else
    match parsePipeline pipeline with
    | none => .error Error.pipeline
    | some stages =>
        .ok (openCursor net (stages.foldl (fun docs st => st.run c.database docs) c.documents))

/-- The call `cursor.All(ctx, &results)` with `decode` the decoder of the element
type of `results`: every yielded document is decoded, and the first decode
error, or else the error that cut the iteration short, is returned. -/
def Cursor.All {α : Type} (cursor : Cursor) (decode : Doc → Except Error α) :
    Except Error (List α) :=
  match decodeAll decode cursor.yields with
  | .error err => .error err
  | .ok xs =>
      match cursor.err with
      | some err => .error err
      | none => .ok xs

/-- The state `addData` changes: the database, and the counter behind
`primitive.NewObjectID`, which hands out a new non-zero identity at each call. -/
structure World where
  database : Database := {}
  objectIDCounter : Nat := 0
  deriving Repr

/-- Add a document at the end of the collection called `name`. -/
def Database.append (db : Database) (name : String) (d : Doc) : Database :=
  if name = "podcasts" then { db with podcasts := db.podcasts ++ [d] }
  else if name = "episodes" then { db with episodes := db.episodes ++ [d] }
  else db

/-- The call `collection.InsertOne(ctx, document)` on the collection `name`.  A
document without `_id` gets a new ObjectID as its first element.  The server
refuses a document whose `_id` is already in the collection.  The result is
`InsertedID` and the new state. -/
def InsertOne (net : Faults) (w : World) (name : String) (document : Doc) :
    Except Error (Bson × World) :=
  let prepared : Bson × Doc × Nat :=
    match getField document "_id" with
    | some id => (id, document, w.objectIDCounter)
    | none =>
        (Bson.objectID (w.objectIDCounter + 1),
          ("_id", Bson.objectID (w.objectIDCounter + 1)) :: document,
          w.objectIDCounter + 1)
  if net.request then .error Error.connection
  else if (w.database.documents name).any (fun x =>
      match getField x "_id" with
      | some id => Bson.beq id prepared.1
      | none => false) then
    .error Error.duplicateKey
  else
    .ok (prepared.1,
      { database := w.database.append name prepared.2.1, objectIDCounter := prepared.2.2 })

/-- The call `collection.InsertMany(ctx, documents)`: the documents are inserted
in order, and the first failure ends the call.  The result is `InsertedIDs` and
the new state. -/
def InsertMany (net : Faults) (w : World) (name : String) :
    List Doc → Except Error (List Bson × World)
  | [] => .ok ([], w)
  | d :: ds =>
      match InsertOne net w name d with
      | .error err => .error err
      | .ok (id, w1) =>
          match InsertMany net w1 name ds with
          | .error err => .error err
          | .ok (ids, w2) => .ok (id :: ids, w2)

/-! ## The program -/

/-- The function `addData`: insert one podcast, then two episodes that refer to
the identity the insert returned. -/
def addData (net : Faults) (w : World) : Except Error World :=
  let podcast : Podcast :=
    { Title := "My Awesome Podcast", Author := "Bruno", Tags := ["test", "demo"] }
  match InsertOne net w "podcasts" podcast.marshal with
  | .error err => .error err
  | .ok (insertedID, w1) =>
      match insertedID with
      | .objectID id =>
          let podcast : Podcast := { podcast with ID := id }
          let episodes : List Doc :=
            [ Episode.marshal
                { Podcast := podcast.ID, Title := "Episode One",
                  Description := "My Awesome Episode One", Duration := 1 },
              Episode.marshal
                { Podcast := podcast.ID, Title := "Episode Two",
                  Description := "My Awesome Episode Two", Duration := 2 } ]
          match InsertMany net w1 "episodes" episodes with
          | .error err => .error err
          | .ok (_, w2) => .ok w2
      | _ => .error Error.typeAssertion

/-- The function `getData`: `Find` with the filter `Episode{}`, then the loop
`for cursor.Next(ctx)` that decodes each document into a fresh `Episode` and
appends it.  The error `Decode` returns is dropped and `cursor.Err()` is never
consulted, as in the source; only a failing `Find` ends the process. -/
def getData (net : Faults) (collection : Collection) : Except Error (List Episode) :=
  match Find net collection (Episode.marshal {}) with
  | .error err => .error err
  | .ok cursor =>
      .ok (cursor.yields.foldl (fun episodes d => episodes ++ [(Episode.Decode d).1]) [])

/-- The function `getDataAggregated`: the `$lookup` / `$unwind` pipeline, read
back with `All` into `[]bson.M`. -/
def getDataAggregated (net : Faults) (collection : Collection) : Except Error (List Doc) :=
  let lookupStage : Doc :=
    [("$lookup", Bson.doc [("from", Bson.str "podcasts"), ("localField", Bson.str "podcast"),
      ("foreignField", Bson.str "_id"), ("as", Bson.str "podcast")])]
  let unwindStage : Doc :=
    [("$unwind", Bson.doc [("path", Bson.str "$podcast"),
      ("preserveNullAndEmptyArrays", Bson.bool false)])]
  match Aggregate net collection [lookupStage, unwindStage] with
  | .error err => .error err
  | .ok showLoadedCursor => showLoadedCursor.All decodeM

/-- The function `getDataPodcastEpisode`: the same pipeline, read back with
`All` into `[]PodcastEpisode`. -/
def getDataPodcastEpisode (net : Faults) (collection : Collection) :
    Except Error (List PodcastEpisode) :=
  let lookupStage : Doc :=
    [("$lookup", Bson.doc [("from", Bson.str "podcasts"), ("localField", Bson.str "podcast"),
      ("foreignField", Bson.str "_id"), ("as", Bson.str "podcast")])]
  let unwindStage : Doc :=
    [("$unwind", Bson.doc [("path", Bson.str "$podcast"),
      ("preserveNullAndEmptyArrays", Bson.bool false)])]
  match Aggregate net collection [lookupStage, unwindStage] with
  | .error err => .error err
  | .ok showLoadedStructCursor => showLoadedStructCursor.All PodcastEpisode.Decode

/-- The environment in which nothing goes wrong. -/
def noFaults : Faults := { request := false, cursor := none }

/-! ## Store states of the data model

The collections of a store state hold podcasts and episodes: every document of
`podcasts` is the encoding of a `Podcast`, every document of `episodes` the
encoding of an `Episode`. -/

/-- A store state of the data model: the podcasts and the episodes stored, in
collection order. -/
structure Store where
  podcasts : List Podcast := []
  episodes : List Episode := []
  deriving DecidableEq, Repr

/-- The database that holds a store state. -/
def Store.database (s : Store) : Database :=
  { podcasts := s.podcasts.map Podcast.marshal, episodes := s.episodes.map Episode.marshal }

/-- The handle `database.Collection("episodes")` that `main` passes to the three
read functions. -/
def Store.episodesCollection (s : Store) : Collection :=
  s.database.Collection "episodes"

/-- The entry the typed join produces for episode `e` and podcast `p`. -/
def joined (e : Episode) (p : Podcast) : PodcastEpisode :=
  { ID := e.ID, Podcast := p, Title := e.Title, Description := e.Description,
    Duration := e.Duration }

/-- Every stored podcast carries an identity.  This holds of every podcast the
program itself stores: `Podcast.marshal` leaves a zero `ID` out and `InsertOne`
then assigns a new one. -/
def Store.Assigned (s : Store) : Prop :=
  ∀ p ∈ s.podcasts, p.ID ≠ NilObjectID

/-- The store state `addData` leaves behind when it starts from an empty database
and the ObjectID counter stands at `n`. -/
def scenarioStore (n : Nat) : Store :=
  { podcasts :=
      [{ ID := n + 1, Title := "My Awesome Podcast", Author := "Bruno",
         Tags := ["test", "demo"] }],
    episodes :=
      [{ ID := n + 2, Podcast := n + 1, Title := "Episode One",
         Description := "My Awesome Episode One", Duration := 1 },
       { ID := n + 3, Podcast := n + 1, Title := "Episode Two",
         Description := "My Awesome Episode Two", Duration := 2 }] }

/-- A database whose second episode document holds a string where `duration` is
expected. -/
def brokenEpisodes : Database :=
  { podcasts := [[("_id", Bson.objectID 1), ("title", Bson.str "P")]],
    episodes :=
      [[("_id", Bson.objectID 2), ("podcast", Bson.objectID 1), ("title", Bson.str "One"),
        ("duration", Bson.int32 1)],
       [("_id", Bson.objectID 3), ("podcast", Bson.objectID 1), ("duration", Bson.str "long"),
        ("title", Bson.str "Two")]] }

/-- A database whose only podcast document has the identity `null`, and whose
only episode is an `Episode` without podcast reference. -/
def nullIdentity : Database :=
  { podcasts := [[("_id", Bson.null), ("title", Bson.str "P")]],
    episodes := [Episode.marshal { ID := 5, Title := "orphan" }] }

/-- A store state whose only episode has no title: its document lacks `title`. -/
def untitledStore : Store :=
  { podcasts := [{ ID := 1, Title := "My Awesome Podcast", Author := "Bruno" }],
    episodes := [{ ID := 2, Podcast := 1, Description := "no title", Duration := 3 }] }

/-! ## Equality of BSON values -/

mutual
theorem Bson.eq_of_beq : ∀ (a b : Bson), Bson.beq a b = true → a = b
  | .objectID a, .objectID b, h => by simp [Bson.beq] at h; rw [h]
  | .str a, .str b, h => by simp [Bson.beq] at h; rw [h]
  | .int32 a, .int32 b, h => by simp [Bson.beq] at h; rw [h]
  | .bool a, .bool b, h => by simp [Bson.beq] at h; rw [h]
  | .null, .null, _ => rfl
  | .arr xs, .arr ys, h => by
      have := Bson.eq_of_beqItems xs ys (by simpa [Bson.beq] using h)
      rw [this]
  | .doc xs, .doc ys, h => by
      have := Bson.eq_of_beqFields xs ys (by simpa [Bson.beq] using h)
      rw [this]
  | .objectID _, .str _, h | .objectID _, .int32 _, h | .objectID _, .bool _, h
  | .objectID _, .null, h | .objectID _, .arr _, h | .objectID _, .doc _, h
  | .str _, .objectID _, h | .str _, .int32 _, h | .str _, .bool _, h
  | .str _, .null, h | .str _, .arr _, h | .str _, .doc _, h
  | .int32 _, .objectID _, h | .int32 _, .str _, h | .int32 _, .bool _, h
  | .int32 _, .null, h | .int32 _, .arr _, h | .int32 _, .doc _, h
  | .bool _, .objectID _, h | .bool _, .str _, h | .bool _, .int32 _, h
  | .bool _, .null, h | .bool _, .arr _, h | .bool _, .doc _, h
  | .null, .objectID _, h | .null, .str _, h | .null, .int32 _, h
  | .null, .bool _, h | .null, .arr _, h | .null, .doc _, h
  | .arr _, .objectID _, h | .arr _, .str _, h | .arr _, .int32 _, h
  | .arr _, .bool _, h | .arr _, .null, h | .arr _, .doc _, h
  | .doc _, .objectID _, h | .doc _, .str _, h | .doc _, .int32 _, h
  | .doc _, .bool _, h | .doc _, .null, h | .doc _, .arr _, h => by
      simp [Bson.beq] at h
theorem Bson.eq_of_beqItems : ∀ (xs ys : List Bson), Bson.beqItems xs ys = true → xs = ys
  | [], [], _ => rfl
  | x :: xs, y :: ys, h => by
      simp only [Bson.beqItems, Bool.and_eq_true] at h
      rw [Bson.eq_of_beq x y h.1, Bson.eq_of_beqItems xs ys h.2]
  | [], _ :: _, h => by simp [Bson.beqItems] at h
  | _ :: _, [], h => by simp [Bson.beqItems] at h
theorem Bson.eq_of_beqFields :
    ∀ (xs ys : List (String × Bson)), Bson.beqFields xs ys = true → xs = ys
  | [], [], _ => rfl
  | (k, x) :: xs, (l, y) :: ys, h => by
      simp only [Bson.beqFields, Bool.and_eq_true, decide_eq_true_eq] at h
      rw [h.1.1, Bson.eq_of_beq x y h.1.2, Bson.eq_of_beqFields xs ys h.2]
  | [], _ :: _, h => by simp [Bson.beqFields] at h
  | _ :: _, [], h => by simp [Bson.beqFields] at h
end

mutual
theorem Bson.beq_self : ∀ (a : Bson), Bson.beq a a = true
  | .objectID _ => by simp [Bson.beq]
  | .str _ => by simp [Bson.beq]
  | .int32 _ => by simp [Bson.beq]
  | .bool _ => by simp [Bson.beq]
  | .null => rfl
  | .arr xs => by simpa [Bson.beq] using Bson.beqItems_self xs
  | .doc xs => by simpa [Bson.beq] using Bson.beqFields_self xs
theorem Bson.beqItems_self : ∀ (xs : List Bson), Bson.beqItems xs xs = true
  | [] => rfl
  | x :: xs => by simp [Bson.beqItems, Bson.beq_self x, Bson.beqItems_self xs]
theorem Bson.beqFields_self : ∀ (xs : List (String × Bson)), Bson.beqFields xs xs = true
  | [] => rfl
  | (k, x) :: xs => by simp [Bson.beqFields, Bson.beq_self x, Bson.beqFields_self xs]
end

theorem Bson.beq_iff_eq (a b : Bson) : Bson.beq a b = true ↔ a = b :=
  ⟨Bson.eq_of_beq a b, fun h => h ▸ Bson.beq_self a⟩

/-! ## The read functions, in closed form -/

theorem foldl_append_map {α β : Type} (f : β → α) (l : List β) (acc : List α) :
    l.foldl (fun a d => a ++ [f d]) acc = acc ++ l.map f := by
  induction l generalizing acc with
  | nil => simp
  | cons x xs ih => simp [ih]

theorem marshal_zero_episode : Episode.marshal {} = [] := by rfl

theorem filterMatches_nil (d : Doc) : filterMatches [] d = true := by rfl

theorem openCursor_noFaults (docs : List Doc) :
    openCursor noFaults docs = { yields := docs, err := none } := by rfl

theorem getData_eq (net : Faults) (c : Collection) (h : net.request = false) :
    getData net c
      = .ok ((openCursor net c.documents).yields.map (fun d => (Episode.Decode d).1)) := by
  have hall : c.documents.filter (filterMatches []) = c.documents :=
    List.filter_eq_self.mpr (fun d _ => filterMatches_nil d)
  simp [getData, Find, h, marshal_zero_episode, hall, foldl_append_map]

theorem parse_join_pipeline :
    parsePipeline
      [[("$lookup", Bson.doc [("from", Bson.str "podcasts"), ("localField", Bson.str "podcast"),
          ("foreignField", Bson.str "_id"), ("as", Bson.str "podcast")])],
       [("$unwind", Bson.doc [("path", Bson.str "$podcast"),
          ("preserveNullAndEmptyArrays", Bson.bool false)])]]
      = some [Stage.lookup "podcasts" "podcast" "_id" "podcast", Stage.unwind "podcast" false] := by
  decide

theorem getDataAggregated_eq (net : Faults) (c : Collection) (h : net.request = false) :
    getDataAggregated net c
      = (openCursor net (c.documents.flatMap (fun d =>
          unwindDoc "podcast" false (lookupDoc c.database "podcasts" "podcast" "_id" "podcast" d)))).All decodeM := by
  simp only [getDataAggregated, Aggregate, h, parse_join_pipeline]
  simp [Stage.run, List.flatMap_map]
  
theorem getDataPodcastEpisode_eq (net : Faults) (c : Collection) (h : net.request = false) :
    getDataPodcastEpisode net c
      = (openCursor net (c.documents.flatMap (fun d =>
          unwindDoc "podcast" false (lookupDoc c.database "podcasts" "podcast" "_id" "podcast" d)))).All
            PodcastEpisode.Decode := by
  simp only [getDataPodcastEpisode, Aggregate, h, parse_join_pipeline]
  simp [Stage.run, List.flatMap_map]

theorem getField_setField (d : Doc) (k : String) (v : Bson) :
    getField (setField d k v) k = some v := by
  induction d with
  | nil => simp [setField, getField]
  | cons kv rest ih =>
      obtain ⟨k', x⟩ := kv
      by_cases hk : k' = k
      · simp [setField, getField, hk]
      · simp [setField, getField, hk, ih]

theorem setField_setField (d : Doc) (k : String) (v w : Bson) :
    setField (setField d k v) k w = setField d k w := by
  induction d with
  | nil => simp [setField]
  | cons kv rest ih =>
      obtain ⟨k', x⟩ := kv
      by_cases hk : k' = k
      · simp [setField, hk]
      · simp [setField, hk, ih]

theorem unwindDoc_arr (d : Doc) (path : String) (items : List Bson)
    (h : getField d path = some (Bson.arr items)) :
    unwindDoc path false d = items.map (fun x => setField d path x) := by
  cases items with
  | nil => simp [unwindDoc, h]
  | cons x xs => simp [unwindDoc, h]

theorem unwind_lookup (db : Database) (d : Doc) :
    unwindDoc "podcast" false (lookupDoc db "podcasts" "podcast" "_id" "podcast" d)
      = ((db.podcasts.filter (fun x =>
            joinMatches (fieldOrNull d "podcast") (fieldOrNull x "_id"))).map
          (fun x => setField d "podcast" (Bson.doc x))) := by
  unfold lookupDoc
  rw [unwindDoc_arr _ _ _ (getField_setField _ _ _)]
  simp [setField_setField, Database.documents, Function.comp_def]

theorem fieldOrNull_episode_podcast (e : Episode) :
    fieldOrNull e.marshal "podcast"
      = if e.Podcast = NilObjectID then Bson.null else Bson.objectID e.Podcast := by
  by_cases h1 : e.ID = NilObjectID <;> by_cases h2 : e.Podcast = NilObjectID <;>
    by_cases h3 : e.Title = "" <;> by_cases h4 : e.Description = "" <;>
    by_cases h5 : e.Duration = 0 <;>
    simp [Episode.marshal, omitempty, fieldOrNull, getField, h1, h2, h3, h4, h5]

theorem fieldOrNull_podcast_id (p : Podcast) :
    fieldOrNull p.marshal "_id"
      = if p.ID = NilObjectID then Bson.null else Bson.objectID p.ID := by
  by_cases h1 : p.ID = NilObjectID <;> by_cases h2 : p.Title = "" <;>
    by_cases h3 : p.Author = "" <;> by_cases h4 : p.Tags = [] <;>
    simp [Podcast.marshal, omitempty, fieldOrNull, getField, h1, h2, h3, h4]

theorem joinMatches_typed (e : Episode) (p : Podcast) :
    joinMatches (fieldOrNull e.marshal "podcast") (fieldOrNull p.marshal "_id")
      = decide (p.ID = e.Podcast) := by
  rw [fieldOrNull_episode_podcast, fieldOrNull_podcast_id]
  by_cases h1 : p.ID = NilObjectID <;> by_cases h2 : e.Podcast = NilObjectID
  · simp [h1, h2, joinMatches, queryMatch, Bson.beq]
  · simp [h1, h2, joinMatches, queryMatch, Bson.beq]
    exact fun h => h2 h.symm
  · simp [h1, h2, joinMatches, queryMatch, Bson.beq]
  · simp [h1, h2, joinMatches, queryMatch, Bson.beq]

/-! ### Round trips -/

theorem decodeStringItems_map_str (tags : List String) :
    decodeStringItems (tags.map Bson.str) = .ok tags := by
  induction tags with
  | nil => rfl
  | cons t ts ih => simp [decodeStringItems, decodeString, ih]

theorem decode_marshal_podcast (p : Podcast) :
    decodeElements Podcast.decodeField p.marshal {} = (p, none) := by
  obtain ⟨id, title, author, tags⟩ := p
  by_cases h1 : id = NilObjectID <;> by_cases h2 : title = "" <;>
    by_cases h3 : author = "" <;> by_cases h4 : tags = [] <;>
    simp +decide [Podcast.marshal, omitempty, decodeElements, Podcast.decodeField,
      decodeObjectID, decodeString, decodeStrings, decodeStringItems_map_str, Except.map,
      h1, h2, h3, h4]

theorem decode_marshal_episode (e : Episode) : Episode.Decode e.marshal = (e, none) := by
  obtain ⟨id, pod, title, desc, dur⟩ := e
  by_cases h1 : id = NilObjectID <;> by_cases h2 : pod = NilObjectID <;>
    by_cases h3 : title = "" <;> by_cases h4 : desc = "" <;> by_cases h5 : dur = 0 <;>
    simp +decide [Episode.Decode, Episode.marshal, omitempty, decodeElements, Episode.decodeField,
      decodeObjectID, decodeString, decodeInt32, Except.map, h1, h2, h3, h4, h5]

theorem decode_joined (e : Episode) (p : Podcast) :
    PodcastEpisode.Decode (setField e.marshal "podcast" (Bson.doc p.marshal))
      = .ok (joined e p) := by
  have hp := decode_marshal_podcast p
  obtain ⟨id, pod, title, desc, dur⟩ := e
  by_cases h1 : id = NilObjectID <;> by_cases h2 : pod = NilObjectID <;>
    by_cases h3 : title = "" <;> by_cases h4 : desc = "" <;> by_cases h5 : dur = 0 <;>
    simp +decide [PodcastEpisode.Decode, Episode.marshal, omitempty, decodeStruct, decodeElements,
      PodcastEpisode.decodeField, decodePodcastValue, setField, joined,
      decodeObjectID, decodeString, decodeInt32, Except.map, h1, h2, h3, h4, h5, hp]

/-! ### Decoding a batch -/

theorem decodeAll_append {α : Type} (decode : Doc → Except Error α) (a b : List Doc)
    (xs ys : List α) (ha : decodeAll decode a = .ok xs) (hb : decodeAll decode b = .ok ys) :
    decodeAll decode (a ++ b) = .ok (xs ++ ys) := by
  induction a generalizing xs with
  | nil =>
      simp only [decodeAll, Except.ok.injEq] at ha
      subst ha
      simpa using hb
  | cons d ds ih =>
      simp only [decodeAll] at ha
      cases hd : decode d with
      | error err => simp [hd] at ha
      | ok x =>
          cases hds : decodeAll decode ds with
          | error err => simp [hd, hds] at ha
          | ok xs' =>
              simp only [hd, hds, Except.ok.injEq] at ha
              subst ha
              simp [decodeAll, hd, ih xs' hds]

theorem decodeAll_map {α β : Type} (decode : Doc → Except Error α) (f : β → Doc) (g : β → α)
    (l : List β) (h : ∀ x ∈ l, decode (f x) = .ok (g x)) :
    decodeAll decode (l.map f) = .ok (l.map g) := by
  induction l with
  | nil => rfl
  | cons x xs ih =>
      have hx := h x (List.mem_cons_self x xs)
      have hxs := ih (fun y hy => h y (List.mem_cons_of_mem x hy))
      simp [decodeAll, hx, hxs]

theorem decodeAll_flatMap {α β : Type} (decode : Doc → Except Error α) (f : β → List Doc)
    (g : β → List α) (l : List β) (h : ∀ x ∈ l, decodeAll decode (f x) = .ok (g x)) :
    decodeAll decode (l.flatMap f) = .ok (l.flatMap g) := by
  induction l with
  | nil => rfl
  | cons x xs ih =>
      rw [List.flatMap_cons, List.flatMap_cons]
      exact decodeAll_append decode _ _ _ _ (h x (List.mem_cons_self x xs))
        (ih (fun y hy => h y (List.mem_cons_of_mem x hy)))

theorem decodeAll_decodeM (docs : List Doc) : decodeAll decodeM docs = .ok docs := by
  induction docs with
  | nil => rfl
  | cons d ds ih => simp [decodeAll, decodeM, ih]

/-! ### The three read functions on a store state of the data model -/

theorem store_documents (s : Store) :
    s.episodesCollection.documents = s.episodes.map Episode.marshal := by
  simp [Store.episodesCollection, Database.Collection, Collection.documents,
    Database.documents, Store.database]

theorem join_store (s : Store) (e : Episode) :
    unwindDoc "podcast" false
        (lookupDoc s.episodesCollection.database "podcasts" "podcast" "_id" "podcast" e.marshal)
      = (s.podcasts.filter (fun p => decide (p.ID = e.Podcast))).map
          (fun p => setField e.marshal "podcast" (Bson.doc p.marshal)) := by
  rw [unwind_lookup]
  simp [Store.episodesCollection, Database.Collection, Store.database, List.filter_map,
    Function.comp_def, joinMatches_typed]

theorem getData_store (s : Store) : getData noFaults s.episodesCollection = .ok s.episodes := by
  rw [getData_eq noFaults _ rfl, openCursor_noFaults, store_documents]
  simp [Function.comp_def, decode_marshal_episode]

theorem join_documents_store (s : Store) :
    s.episodesCollection.documents.flatMap (fun d =>
        unwindDoc "podcast" false
          (lookupDoc s.episodesCollection.database "podcasts" "podcast" "_id" "podcast" d))
      = s.episodes.flatMap (fun e =>
          (s.podcasts.filter (fun p => decide (p.ID = e.Podcast))).map
            (fun p => setField e.marshal "podcast" (Bson.doc p.marshal))) := by
  rw [store_documents, List.flatMap_map]
  congr 1
  funext e
  exact join_store s e

theorem getDataAggregated_store (s : Store) :
    getDataAggregated noFaults s.episodesCollection
      = .ok (s.episodes.flatMap (fun e =>
          (s.podcasts.filter (fun p => decide (p.ID = e.Podcast))).map
            (fun p => setField e.marshal "podcast" (Bson.doc p.marshal)))) := by
  rw [getDataAggregated_eq noFaults _ rfl, openCursor_noFaults, join_documents_store]
  simp [Cursor.All, decodeAll_decodeM]

theorem getDataPodcastEpisode_store (s : Store) :
    getDataPodcastEpisode noFaults s.episodesCollection
      = .ok (s.episodes.flatMap (fun e =>
          (s.podcasts.filter (fun p => decide (p.ID = e.Podcast))).map (joined e))) := by
  rw [getDataPodcastEpisode_eq noFaults _ rfl, openCursor_noFaults, join_documents_store]
  have h := decodeAll_flatMap PodcastEpisode.Decode
    (fun e : Episode => (s.podcasts.filter (fun p => decide (p.ID = e.Podcast))).map
      (fun p => setField e.marshal "podcast" (Bson.doc p.marshal)))
    (fun e : Episode => (s.podcasts.filter (fun p => decide (p.ID = e.Podcast))).map (joined e))
    s.episodes
    (fun e _ => decodeAll_map PodcastEpisode.Decode _ _ _ (fun p _ => decode_joined e p))
  simp [Cursor.All, h]

theorem filter_id_unique (ps : List Podcast) (p : Podcast)
    (huniq : (ps.map (fun q => q.ID)).Nodup) (hp : p ∈ ps) :
    ps.filter (fun q => decide (q.ID = p.ID)) = [p] := by
  induction ps with
  | nil => cases hp
  | cons q qs ih =>
      rw [List.map_cons, List.nodup_cons] at huniq
      rcases List.mem_cons.mp hp with rfl | hmem
      · have hnone : qs.filter (fun q => decide (q.ID = p.ID)) = [] := by
          rw [List.filter_eq_nil_iff]
          intro q hq hid
          exact huniq.1 (List.mem_map.mpr ⟨q, hq, of_decide_eq_true hid⟩)
        simp [List.filter_cons, hnone]
      · have hne : q.ID ≠ p.ID := fun h =>
          huniq.1 (List.mem_map.mpr ⟨p, hmem, h.symm⟩)
        simp [List.filter_cons, hne, ih huniq.2 hmem]

theorem getField_setField_ne (d : Doc) (k k' : String) (v : Bson) (h : k' ≠ k) :
    getField (setField d k v) k' = getField d k' := by
  induction d with
  | nil => simp [setField, getField, h.symm]
  | cons kv rest ih =>
      obtain ⟨k0, x⟩ := kv
      by_cases hk : k0 = k
      · subst hk
        simp [setField, getField, h.symm]
      · by_cases hk' : k0 = k'
        · subst hk'
          simp [setField, getField, hk]
        · simp [setField, getField, hk, hk', ih]

theorem decodeAll_forall₂ {α : Type} (decode : Doc → Except Error α) (docs : List Doc)
    (xs : List α) (h : decodeAll decode docs = .ok xs) :
    List.Forall₂ (fun d x => decode d = .ok x) docs xs := by
  induction docs generalizing xs with
  | nil =>
      simp only [decodeAll, Except.ok.injEq] at h
      subst h
      exact List.Forall₂.nil
  | cons d ds ih =>
      simp only [decodeAll] at h
      cases hd : decode d with
      | error err => simp [hd] at h
      | ok x =>
          cases hds : decodeAll decode ds with
          | error err => simp [hd, hds] at h
          | ok xs' =>
              simp only [hd, hds, Except.ok.injEq] at h
              subst h
              exact List.Forall₂.cons hd (ih xs' hds)

theorem All_ok {α : Type} (cursor : Cursor) (decode : Doc → Except Error α) (xs : List α)
    (h : cursor.All decode = .ok xs) :
    decodeAll decode cursor.yields = .ok xs ∧ cursor.err = none := by
  unfold Cursor.All at h
  cases hd : decodeAll decode cursor.yields with
  | error err => simp [hd] at h
  | ok ys =>
      cases he : cursor.err with
      | some err => simp [hd, he] at h
      | none =>
          simp only [hd, he, Except.ok.injEq] at h
          exact ⟨by rw [h], rfl⟩

theorem getField_marshal_id (e : Episode) :
    getField e.marshal "_id"
      = if e.ID = NilObjectID then none else some (Bson.objectID e.ID) := by
  by_cases h1 : e.ID = NilObjectID <;> by_cases h2 : e.Podcast = NilObjectID <;>
    by_cases h3 : e.Title = "" <;> by_cases h4 : e.Description = "" <;>
    by_cases h5 : e.Duration = 0 <;>
    simp [Episode.marshal, omitempty, getField, h1, h2, h3, h4, h5]

theorem decode_assigned_id (e : Episode) (n : ObjectID) (h : e.ID = NilObjectID) :
    Episode.Decode (("_id", Bson.objectID n) :: e.marshal) = ({ e with ID := n }, none) := by
  obtain ⟨id, pod, title, desc, dur⟩ := e
  simp only at h
  subst h
  by_cases h2 : pod = NilObjectID <;>
    by_cases h3 : title = "" <;> by_cases h4 : desc = "" <;> by_cases h5 : dur = 0 <;>
    simp +decide [Episode.Decode, Episode.marshal, omitempty, decodeElements, Episode.decodeField,
      decodeObjectID, decodeString, decodeInt32, Except.map, h2, h3, h4, h5]

theorem append_episodes_documents (db : Database) (d : Doc) :
    ((db.append "episodes" d).Collection "episodes").documents
      = (db.Collection "episodes").documents ++ [d] := by
  simp [Database.append, Database.Collection, Collection.documents, Database.documents]

theorem getData_noFaults (c : Collection) :
    getData noFaults c = .ok (c.documents.map (fun d => (Episode.Decode d).1)) := by
  rw [getData_eq noFaults _ rfl, openCursor_noFaults]

/-! ### Decode errors, and fields no element names -/

theorem decodeElements_keeps {α β : Type} (field : α → String → Bson → Except Error α)
    (proj : α → β) (tag : String)
    (hstep : ∀ v k x v1, field v k x = .ok v1 → keyNames k tag = false → proj v1 = proj v) :
    ∀ (d : Doc) (v v' : α), (∀ kv ∈ d, keyNames kv.1 tag = false) →
      decodeElements field d v = (v', none) → proj v' = proj v := by
  intro d
  induction d with
  | nil =>
      intro v v' _ h
      simp only [decodeElements, Prod.mk.injEq] at h
      rw [h.1]
  | cons kv rest ih =>
      intro v v' hnames h
      obtain ⟨k, x⟩ := kv
      have hk : keyNames k tag = false := hnames (k, x) (List.mem_cons_self _ _)
      have hrest : ∀ kv ∈ rest, keyNames kv.1 tag = false :=
        fun kv hkv => hnames kv (List.mem_cons_of_mem _ hkv)
      simp only [decodeElements] at h
      cases hf : field v k x with
      | error err => simp [hf] at h
      | ok v1 =>
          simp only [hf] at h
          rw [ih v1 v' hrest h, hstep v k x v1 hf hk]

theorem map_ok {α β : Type} {r : Except Error α} {f : α → β} {b : β}
    (h : r.map f = .ok b) : ∃ a, r = .ok a ∧ b = f a := by
  cases r with
  | error err => simp [Except.map] at h
  | ok a => exact ⟨a, rfl, by simpa [Except.map] using h.symm⟩

theorem decodeField_keeps_title (v : PodcastEpisode) (k : String) (x : Bson)
    (v1 : PodcastEpisode) (h : PodcastEpisode.decodeField v k x = .ok v1)
    (hk : keyNames k "title" = false) : v1.Title = v.Title := by
  unfold PodcastEpisode.decodeField at h
  split_ifs at h with h1 h2 h3 h4 h5 <;>
    first
    | (obtain ⟨a, _, rfl⟩ := map_ok h; rfl)
    | (cases h; rfl)
    | (exfalso; simp_all)

theorem decodeField_keeps_description (v : PodcastEpisode) (k : String) (x : Bson)
    (v1 : PodcastEpisode) (h : PodcastEpisode.decodeField v k x = .ok v1)
    (hk : keyNames k "description" = false) : v1.Description = v.Description := by
  unfold PodcastEpisode.decodeField at h
  split_ifs at h with h1 h2 h3 h4 h5 <;>
    first
    | (obtain ⟨a, _, rfl⟩ := map_ok h; rfl)
    | (cases h; rfl)
    | (exfalso; simp_all)

theorem decodeField_keeps_duration (v : PodcastEpisode) (k : String) (x : Bson)
    (v1 : PodcastEpisode) (h : PodcastEpisode.decodeField v k x = .ok v1)
    (hk : keyNames k "duration" = false) : v1.Duration = v.Duration := by
  unfold PodcastEpisode.decodeField at h
  split_ifs at h with h1 h2 h3 h4 h5 <;>
    first
    | (obtain ⟨a, _, rfl⟩ := map_ok h; rfl)
    | (cases h; rfl)
    | (exfalso; simp_all)

theorem decodeStruct_ok {α : Type} (field : α → String → Bson → Except Error α) (d : Doc)
    (v v' : α) (h : decodeStruct field d v = .ok v') : decodeElements field d v = (v', none) := by
  unfold decodeStruct at h
  split at h
  · rename_i val' heq
    simp only [Except.ok.injEq] at h
    rw [heq, h]
  · cases h

theorem decodeAll_error {α : Type} (decode : Doc → Except Error α) (docs : List Doc)
    (h : ∃ d ∈ docs, ∃ err, decode d = .error err) :
    ∃ d ∈ docs, ∃ err, decode d = .error err ∧ decodeAll decode docs = .error err := by
  induction docs with
  | nil =>
      obtain ⟨d, hd, _⟩ := h
      cases hd
  | cons d ds ih =>
      cases hd : decode d with
      | error err => exact ⟨d, List.mem_cons_self d ds, err, hd, by simp [decodeAll, hd]⟩
      | ok x =>
          have hrest : ∃ d' ∈ ds, ∃ err, decode d' = .error err := by
            obtain ⟨d', hmem, err, herr⟩ := h
            rcases List.mem_cons.mp hmem with rfl | hmem'
            · rw [hd] at herr; cases herr
            · exact ⟨d', hmem', err, herr⟩
          obtain ⟨d', hmem, err, herr, hall⟩ := ih hrest
          exact ⟨d', List.mem_cons_of_mem d hmem, err, herr, by simp [decodeAll, hd, hall]⟩

theorem decodeAll_ok_all {α : Type} (decode : Doc → Except Error α) (docs : List Doc)
    (h : ∀ d ∈ docs, ∃ x, decode d = .ok x) :
    ∃ xs, decodeAll decode docs = .ok xs ∧ xs.length = docs.length := by
  induction docs with
  | nil => exact ⟨[], rfl, rfl⟩
  | cons d ds ih =>
      obtain ⟨x, hx⟩ := h d (List.mem_cons_self d ds)
      obtain ⟨xs, hxs, hlen⟩ := ih (fun d' hd' => h d' (List.mem_cons_of_mem d hd'))
      exact ⟨x :: xs, by simp [decodeAll, hx, hxs], by simp [hlen]⟩

theorem decodeElements_error_decode {α : Type} (field : α → String → Bson → Except Error α)
    (hfield : ∀ v k x err, field v k x = .error err → err = Error.decode) :
    ∀ (d : Doc) (v : α) (err : Error),
      (decodeElements field d v).2 = some err → err = Error.decode := by
  intro d
  induction d with
  | nil => intro v err h; simp [decodeElements] at h
  | cons kv rest ih =>
      intro v err h
      obtain ⟨k, x⟩ := kv
      simp only [decodeElements] at h
      cases hf : field v k x with
      | error e =>
          simp only [hf, Option.some.injEq] at h
          rw [← h]; exact hfield v k x e hf
      | ok v1 =>
          simp only [hf] at h
          exact ih v1 err h

theorem map_error {α β : Type} {r : Except Error α} {f : α → β} {err : Error}
    (h : r.map f = .error err) : r = .error err := by
  cases r with
  | error e => simpa [Except.map] using h
  | ok a => simp [Except.map] at h

theorem decodeObjectID_error (x : Bson) (err : Error) (h : decodeObjectID x = .error err) :
    err = Error.decode := by
  cases x with
  | str s =>
      simp only [decodeObjectID] at h
      cases hs : ObjectIDFromString s with
      | some id => simp [hs] at h
      | none =>
          simp only [hs, Except.error.injEq] at h
          exact h.symm
  | objectID _ => simp [decodeObjectID] at h
  | null => simp [decodeObjectID] at h
  | int32 _ => simp [decodeObjectID] at h; exact h.symm
  | bool _ => simp [decodeObjectID] at h; exact h.symm
  | arr _ => simp [decodeObjectID] at h; exact h.symm
  | doc _ => simp [decodeObjectID] at h; exact h.symm

theorem decodeString_error (x : Bson) (err : Error) (h : decodeString x = .error err) :
    err = Error.decode := by
  cases x <;> simp [decodeString] at h <;> exact h.symm

theorem decodeInt32_error (x : Bson) (err : Error) (h : decodeInt32 x = .error err) :
    err = Error.decode := by
  cases x <;> simp [decodeInt32] at h <;> exact h.symm

theorem decodeStringItems_error (xs : List Bson) (err : Error)
    (h : decodeStringItems xs = .error err) : err = Error.decode := by
  induction xs generalizing err with
  | nil => simp [decodeStringItems] at h
  | cons x xs ih =>
      simp only [decodeStringItems] at h
      cases hx : decodeString x with
      | error e =>
          simp only [hx, Except.error.injEq] at h
          rw [← h]; exact decodeString_error x e hx
      | ok s =>
          cases hxs : decodeStringItems xs with
          | error e =>
              simp only [hx, hxs, Except.error.injEq] at h
              rw [← h]; exact ih e hxs
          | ok ss => simp [hx, hxs] at h

theorem decodeStrings_error (x : Bson) (err : Error) (h : decodeStrings x = .error err) :
    err = Error.decode := by
  cases x with
  | arr items => exact decodeStringItems_error items err (by simpa [decodeStrings] using h)
  | null => simp [decodeStrings] at h
  | objectID _ => simp [decodeStrings] at h; exact h.symm
  | str _ => simp [decodeStrings] at h; exact h.symm
  | int32 _ => simp [decodeStrings] at h; exact h.symm
  | bool _ => simp [decodeStrings] at h; exact h.symm
  | doc _ => simp [decodeStrings] at h; exact h.symm

theorem podcast_decodeField_error (v : Podcast) (k : String) (x : Bson) (err : Error)
    (h : Podcast.decodeField v k x = .error err) : err = Error.decode := by
  unfold Podcast.decodeField at h
  split_ifs at h
  · exact decodeObjectID_error x err (map_error h)
  · exact decodeString_error x err (map_error h)
  · exact decodeString_error x err (map_error h)
  · exact decodeStrings_error x err (map_error h)

theorem decodeStruct_error {α : Type} (field : α → String → Bson → Except Error α)
    (hfield : ∀ v k x err, field v k x = .error err → err = Error.decode)
    (d : Doc) (v : α) (err : Error) (h : decodeStruct field d v = .error err) :
    err = Error.decode := by
  unfold decodeStruct at h
  split at h
  · cases h
  · rename_i e heq
    simp only [Except.error.injEq] at h
    have := decodeElements_error_decode field hfield d v e (by rw [heq])
    rw [← h]; exact this

theorem decodePodcastValue_error (into : Podcast) (x : Bson) (err : Error)
    (h : decodePodcastValue into x = .error err) : err = Error.decode := by
  cases x with
  | doc fields =>
      exact decodeStruct_error _ podcast_decodeField_error fields into err
        (by simpa [decodePodcastValue] using h)
  | null => simp [decodePodcastValue] at h
  | objectID _ => simp [decodePodcastValue] at h; exact h.symm
  | str _ => simp [decodePodcastValue] at h; exact h.symm
  | int32 _ => simp [decodePodcastValue] at h; exact h.symm
  | bool _ => simp [decodePodcastValue] at h; exact h.symm
  | arr _ => simp [decodePodcastValue] at h; exact h.symm

theorem podcastEpisode_decodeField_error (v : PodcastEpisode) (k : String) (x : Bson)
    (err : Error) (h : PodcastEpisode.decodeField v k x = .error err) : err = Error.decode := by
  unfold PodcastEpisode.decodeField at h
  split_ifs at h
  · exact decodeObjectID_error x err (map_error h)
  · exact decodePodcastValue_error _ x err (map_error h)
  · exact decodeString_error x err (map_error h)
  · exact decodeString_error x err (map_error h)
  · exact decodeInt32_error x err (map_error h)

theorem podcastEpisode_decode_error (d : Doc) (err : Error)
    (h : PodcastEpisode.Decode d = .error err) : err = Error.decode :=
  decodeStruct_error _ podcastEpisode_decodeField_error d {} err h

theorem getField_marshal_podcast_id (p : Podcast) :
    getField p.marshal "_id"
      = if p.ID = NilObjectID then none else some (Bson.objectID p.ID) := by
  by_cases h1 : p.ID = NilObjectID <;> by_cases h2 : p.Title = "" <;>
    by_cases h3 : p.Author = "" <;> by_cases h4 : p.Tags = [] <;>
    simp [Podcast.marshal, omitempty, getField, h1, h2, h3, h4]

/-- The identity `InsertOne` returns for a podcast is never the nil ObjectID:
this is what `Store.Assigned` records. -/
theorem insertOne_podcast_identity (net : Faults) (w w' : World) (p : Podcast) (id : Bson)
    (h : InsertOne net w "podcasts" p.marshal = .ok (id, w')) :
    ∃ n : ObjectID, n ≠ NilObjectID ∧ id = Bson.objectID n := by
  unfold InsertOne at h
  rw [getField_marshal_podcast_id] at h
  by_cases hid : p.ID = NilObjectID
  · simp only [hid, if_true] at h
    split at h
    · cases h
    · split at h
      · cases h
      · simp only [Except.ok.injEq, Prod.mk.injEq] at h
        exact ⟨w.objectIDCounter + 1, by simp [NilObjectID], h.1.symm⟩
  · simp only [hid, if_false] at h
    split at h
    · cases h
    · split at h
      · cases h
      · simp only [Except.ok.injEq, Prod.mk.injEq] at h
        exact ⟨p.ID, hid, h.1.symm⟩

/-! ## The claims -/

/-- C1: in a store state whose podcast identities are pairwise distinct, an
episode `E` whose podcast reference is the identity of a stored podcast `P`
contributes exactly one entry to the result of `getDataAggregated` and exactly
one to the result of `getDataPodcastEpisode`.  With `xs` the episodes stored
before `E` and `ys` those stored after it, each result is the result for `xs`,
then the one entry of `E`, then the result for `ys`.  The generic entry is the
document of `E` with the document of `P` under `podcast` and every other field
as `E` has it; the typed entry has the identity, title, description and duration
of `E`, and its podcast is `P` itself. -/
theorem join_resolved_exactly_one (s : Store) (xs ys : List Episode) (E : Episode) (P : Podcast)
    (huniq : (s.podcasts.map (fun q => q.ID)).Nodup)
    (hE : s.episodes = xs ++ E :: ys) (hP : P ∈ s.podcasts) (href : E.Podcast = P.ID) :
    ∃ (gx gy : List Doc) (tx ty : List PodcastEpisode),
      getDataAggregated noFaults (Store.mk s.podcasts xs).episodesCollection = .ok gx ∧
      getDataAggregated noFaults (Store.mk s.podcasts ys).episodesCollection = .ok gy ∧
      getDataAggregated noFaults s.episodesCollection
        = .ok (gx ++ setField E.marshal "podcast" (Bson.doc P.marshal) :: gy) ∧
      getField (setField E.marshal "podcast" (Bson.doc P.marshal)) "podcast"
        = some (Bson.doc P.marshal) ∧
      (∀ k, k ≠ "podcast" →
        getField (setField E.marshal "podcast" (Bson.doc P.marshal)) k = getField E.marshal k) ∧
      getDataPodcastEpisode noFaults (Store.mk s.podcasts xs).episodesCollection = .ok tx ∧
      getDataPodcastEpisode noFaults (Store.mk s.podcasts ys).episodesCollection = .ok ty ∧
      getDataPodcastEpisode noFaults s.episodesCollection
        = .ok (tx ++ { ID := E.ID, Podcast := P, Title := E.Title,
                       Description := E.Description, Duration := E.Duration } :: ty) := by
  have hfilter : s.podcasts.filter (fun q => decide (q.ID = E.Podcast)) = [P] := by
    rw [href]; exact filter_id_unique s.podcasts P huniq hP
  refine ⟨_, _, _, _, getDataAggregated_store _, getDataAggregated_store _, ?_,
    getField_setField _ _ _, fun k hk => getField_setField_ne _ _ _ _ hk,
    getDataPodcastEpisode_store _, getDataPodcastEpisode_store _, ?_⟩
  · rw [getDataAggregated_store, hE]
    simp [List.flatMap_append, List.flatMap_cons, hfilter]
  · rw [getDataPodcastEpisode_store, hE]
    simp [List.flatMap_append, List.flatMap_cons, hfilter, joined]

theorem join_resolved_exactly_one_witness :
    ((scenarioStore 0).podcasts.map (fun q => q.ID)).Nodup ∧
    (scenarioStore 0).episodes
      = [] ++ ({ ID := 2, Podcast := 1, Title := "Episode One",
                 Description := "My Awesome Episode One", Duration := 1 } : Episode)
          :: [{ ID := 3, Podcast := 1, Title := "Episode Two",
                Description := "My Awesome Episode Two", Duration := 2 }] ∧
    ∃ (gx gy : List Doc) (tx ty : List PodcastEpisode),
      getDataAggregated noFaults (Store.mk (scenarioStore 0).podcasts []).episodesCollection
        = .ok gx ∧
      getDataAggregated noFaults
          (Store.mk (scenarioStore 0).podcasts
            [{ ID := 3, Podcast := 1, Title := "Episode Two",
               Description := "My Awesome Episode Two", Duration := 2 }]).episodesCollection
        = .ok gy ∧
      getDataAggregated noFaults (scenarioStore 0).episodesCollection
        = .ok (gx ++ setField
            (Episode.marshal { ID := 2, Podcast := 1, Title := "Episode One",
                               Description := "My Awesome Episode One", Duration := 1 })
            "podcast"
            (Bson.doc (Podcast.marshal { ID := 1, Title := "My Awesome Podcast",
                                         Author := "Bruno", Tags := ["test", "demo"] })) :: gy) ∧
      getField (setField
            (Episode.marshal { ID := 2, Podcast := 1, Title := "Episode One",
                               Description := "My Awesome Episode One", Duration := 1 })
            "podcast"
            (Bson.doc (Podcast.marshal { ID := 1, Title := "My Awesome Podcast",
                                         Author := "Bruno", Tags := ["test", "demo"] })))
          "podcast"
        = some (Bson.doc (Podcast.marshal { ID := 1, Title := "My Awesome Podcast",
                                            Author := "Bruno", Tags := ["test", "demo"] })) ∧
      (∀ k, k ≠ "podcast" →
        getField (setField
            (Episode.marshal { ID := 2, Podcast := 1, Title := "Episode One",
                               Description := "My Awesome Episode One", Duration := 1 })
            "podcast"
            (Bson.doc (Podcast.marshal { ID := 1, Title := "My Awesome Podcast",
                                         Author := "Bruno", Tags := ["test", "demo"] }))) k
          = getField (Episode.marshal { ID := 2, Podcast := 1, Title := "Episode One",
                                        Description := "My Awesome Episode One",
                                        Duration := 1 }) k) ∧
      getDataPodcastEpisode noFaults
          (Store.mk (scenarioStore 0).podcasts []).episodesCollection = .ok tx ∧
      getDataPodcastEpisode noFaults
          (Store.mk (scenarioStore 0).podcasts
            [{ ID := 3, Podcast := 1, Title := "Episode Two",
               Description := "My Awesome Episode Two", Duration := 2 }]).episodesCollection
        = .ok ty ∧
      getDataPodcastEpisode noFaults (scenarioStore 0).episodesCollection
        = .ok (tx ++ { ID := 2,
                       Podcast := { ID := 1, Title := "My Awesome Podcast", Author := "Bruno",
                                    Tags := ["test", "demo"] },
                       Title := "Episode One", Description := "My Awesome Episode One",
                       Duration := 1 } :: ty) :=
  ⟨by decide, rfl,
    join_resolved_exactly_one (scenarioStore 0) []
      [{ ID := 3, Podcast := 1, Title := "Episode Two",
         Description := "My Awesome Episode Two", Duration := 2 }]
      { ID := 2, Podcast := 1, Title := "Episode One",
        Description := "My Awesome Episode One", Duration := 1 }
      { ID := 1, Title := "My Awesome Podcast", Author := "Bruno", Tags := ["test", "demo"] }
      (by decide) rfl (by decide) rfl⟩

/-- C2, as stated, fails: `$lookup` matches an absent reference as `null`.  In
`nullIdentity` the only episode has no podcast reference (its document has no
`podcast` element, and `getData` returns it with the nil reference), the only
podcast document has `_id: null`, and both join functions return an entry made
from that episode, where they return nothing once the episode is taken away. -/
theorem absent_reference_joins_null_identity :
    nullIdentity.episodes = [[("_id", Bson.objectID 5), ("title", Bson.str "orphan")]] ∧
    getField (Episode.marshal { ID := 5, Title := "orphan" }) "podcast" = none ∧
    getData noFaults (nullIdentity.Collection "episodes")
      = .ok [{ ID := 5, Podcast := NilObjectID, Title := "orphan" }] ∧
    getDataAggregated noFaults (nullIdentity.Collection "episodes")
      = .ok [[("_id", Bson.objectID 5), ("title", Bson.str "orphan"),
              ("podcast", Bson.doc [("_id", Bson.null), ("title", Bson.str "P")])]] ∧
    getDataPodcastEpisode noFaults (nullIdentity.Collection "episodes")
      = .ok [{ ID := 5, Podcast := { ID := NilObjectID, Title := "P" }, Title := "orphan" }] ∧
    getDataAggregated noFaults
        (({ podcasts := nullIdentity.podcasts, episodes := [] } : Database).Collection "episodes")
      = .ok [] ∧
    getDataPodcastEpisode noFaults
        (({ podcasts := nullIdentity.podcasts, episodes := [] } : Database).Collection "episodes")
      = .ok [] := by
  refine ⟨by rfl, by rfl, by rfl, by rfl, by rfl, by rfl, by rfl⟩

/-- C2, amended: in a store state whose podcasts all carry an identity (none is
nil, null or missing), an episode `E` whose podcast reference is absent (the
nil ObjectID, left out of its document) or is the identity of no stored podcast
contributes no entry to the result of `getDataAggregated` nor to that of
`getDataPodcastEpisode`: with `xs` the episodes before `E` and `ys` those after
it, each result is the result for `xs` followed by the result for `ys`.
`getData` still returns `E`, between what it returns for `xs` and for `ys`. -/
theorem join_unresolved_dropped (s : Store) (xs ys : List Episode) (E : Episode)
    (hids : s.Assigned)
    (hE : s.episodes = xs ++ E :: ys)
    (href : E.Podcast = NilObjectID ∨ ∀ p ∈ s.podcasts, p.ID ≠ E.Podcast) :
    ∃ (gx gy : List Doc) (tx ty : List PodcastEpisode) (ex ey : List Episode),
      getDataAggregated noFaults (Store.mk s.podcasts xs).episodesCollection = .ok gx ∧
      getDataAggregated noFaults (Store.mk s.podcasts ys).episodesCollection = .ok gy ∧
      getDataAggregated noFaults s.episodesCollection = .ok (gx ++ gy) ∧
      getDataPodcastEpisode noFaults (Store.mk s.podcasts xs).episodesCollection = .ok tx ∧
      getDataPodcastEpisode noFaults (Store.mk s.podcasts ys).episodesCollection = .ok ty ∧
      getDataPodcastEpisode noFaults s.episodesCollection = .ok (tx ++ ty) ∧
      getData noFaults (Store.mk s.podcasts xs).episodesCollection = .ok ex ∧
      getData noFaults (Store.mk s.podcasts ys).episodesCollection = .ok ey ∧
      getData noFaults s.episodesCollection = .ok (ex ++ E :: ey) := by
  have hnone : ∀ p ∈ s.podcasts, p.ID ≠ E.Podcast := by
    rcases href with h | h
    · intro p hp; rw [h]; exact hids p hp
    · exact h
  have hfilter : s.podcasts.filter (fun q => decide (q.ID = E.Podcast)) = [] := by
    rw [List.filter_eq_nil_iff]
    intro p hp hid
    exact hnone p hp (of_decide_eq_true hid)
  refine ⟨_, _, _, _, _, _, getDataAggregated_store _, getDataAggregated_store _, ?_,
    getDataPodcastEpisode_store _, getDataPodcastEpisode_store _, ?_,
    getData_store _, getData_store _, ?_⟩
  · rw [getDataAggregated_store, hE]
    simp [List.flatMap_append, List.flatMap_cons, hfilter]
  · rw [getDataPodcastEpisode_store, hE]
    simp [List.flatMap_append, List.flatMap_cons, hfilter]
  · rw [getData_store, hE]

theorem join_unresolved_dropped_witness :
    (Store.mk [{ ID := 1, Title := "My Awesome Podcast" }]
        [{ ID := 2, Title := "No podcast" }]).Assigned ∧
    ∃ (gx gy : List Doc) (tx ty : List PodcastEpisode) (ex ey : List Episode),
      getDataAggregated noFaults
          (Store.mk [{ ID := 1, Title := "My Awesome Podcast" }] []).episodesCollection
        = .ok gx ∧
      getDataAggregated noFaults
          (Store.mk [{ ID := 1, Title := "My Awesome Podcast" }] []).episodesCollection
        = .ok gy ∧
      getDataAggregated noFaults
          (Store.mk [{ ID := 1, Title := "My Awesome Podcast" }]
            [{ ID := 2, Title := "No podcast" }]).episodesCollection = .ok (gx ++ gy) ∧
      getDataPodcastEpisode noFaults
          (Store.mk [{ ID := 1, Title := "My Awesome Podcast" }] []).episodesCollection
        = .ok tx ∧
      getDataPodcastEpisode noFaults
          (Store.mk [{ ID := 1, Title := "My Awesome Podcast" }] []).episodesCollection
        = .ok ty ∧
      getDataPodcastEpisode noFaults
          (Store.mk [{ ID := 1, Title := "My Awesome Podcast" }]
            [{ ID := 2, Title := "No podcast" }]).episodesCollection = .ok (tx ++ ty) ∧
      getData noFaults
          (Store.mk [{ ID := 1, Title := "My Awesome Podcast" }] []).episodesCollection
        = .ok ex ∧
      getData noFaults
          (Store.mk [{ ID := 1, Title := "My Awesome Podcast" }] []).episodesCollection
        = .ok ey ∧
      getData noFaults
          (Store.mk [{ ID := 1, Title := "My Awesome Podcast" }]
            [{ ID := 2, Title := "No podcast" }]).episodesCollection
        = .ok (ex ++ ({ ID := 2, Title := "No podcast" } : Episode) :: ey) :=
  ⟨by unfold Store.Assigned; decide,
    join_unresolved_dropped
      (Store.mk [{ ID := 1, Title := "My Awesome Podcast" }] [{ ID := 2, Title := "No podcast" }])
      [] [] { ID := 2, Title := "No podcast" } (by unfold Store.Assigned; decide) rfl
      (Or.inl rfl)⟩

/-- C3: `getData` is not fail-fast.  On a collection whose second document
cannot be decoded into `Episode` (`Decode` returns an error for it), `getData`
still returns a sequence, with a half-decoded entry for that document, where
`getDataPodcastEpisode` ends with the decode error; and when the cursor breaks
after the first document, `getData` returns the one-entry sequence that misses
the second stored document, where `getDataAggregated` ends with the error. -/
theorem getData_keeps_going :
    (Episode.Decode [("_id", Bson.objectID 3), ("podcast", Bson.objectID 1),
        ("duration", Bson.str "long"), ("title", Bson.str "Two")]).2 = some Error.decode ∧
    getData noFaults (brokenEpisodes.Collection "episodes")
      = .ok [{ ID := 2, Podcast := 1, Title := "One", Duration := 1 },
             { ID := 3, Podcast := 1 }] ∧
    getDataPodcastEpisode noFaults (brokenEpisodes.Collection "episodes") = .error Error.decode ∧
    getData { request := false, cursor := some 1 } (brokenEpisodes.Collection "episodes")
      = .ok [{ ID := 2, Podcast := 1, Title := "One", Duration := 1 }] ∧
    getDataAggregated { request := false, cursor := some 1 } (brokenEpisodes.Collection "episodes")
      = .error Error.connection := by
  refine ⟨by rfl, by rfl, by rfl, by rfl, by rfl⟩

/-- C4: storing an episode `E` with `InsertMany` and then running `getData`
yields the entries of the collection as it was, followed by exactly one entry
`E'` for the document of `E`.  `E'` equals `E` in podcast reference, title,
description and duration, whether or not these are zero and left out of the
document; its identity is that of `E` when `E` had one, and in every case it is
the non-nil identity the insert returned. -/
theorem stored_episode_round_trip (w w' : World) (E : Episode) (ids : List Bson)
    (h : InsertMany noFaults w "episodes" [E.marshal] = .ok (ids, w')) :
    ∃ (old : List Episode) (E' : Episode),
      getData noFaults (w.database.Collection "episodes") = .ok old ∧
      getData noFaults (w'.database.Collection "episodes") = .ok (old ++ [E']) ∧
      E'.Podcast = E.Podcast ∧ E'.Title = E.Title ∧ E'.Description = E.Description ∧
      E'.Duration = E.Duration ∧
      (E.ID ≠ NilObjectID → E'.ID = E.ID) ∧
      E'.ID ≠ NilObjectID ∧ ids = [Bson.objectID E'.ID] := by
  simp only [InsertMany] at h
  cases hone : InsertOne noFaults w "episodes" E.marshal with
  | error err => simp [hone] at h
  | ok r =>
      obtain ⟨id, w1⟩ := r
      simp only [hone, Except.ok.injEq, Prod.mk.injEq] at h
      obtain ⟨hids, hw⟩ := h
      subst hw
      subst hids
      unfold InsertOne at hone
      rw [getField_marshal_id] at hone
      by_cases hid : E.ID = NilObjectID
      · simp only [hid, if_true] at hone
        split at hone
        · cases hone
        · split at hone
          · cases hone
          · simp only [Except.ok.injEq, Prod.mk.injEq] at hone
            obtain ⟨h1, h2⟩ := hone
            subst h1
            subst h2
            refine ⟨_, { E with ID := w.objectIDCounter + 1 }, getData_noFaults _, ?_,
              rfl, rfl, rfl, rfl, fun hne => absurd hid hne, ?_, rfl⟩
            · rw [getData_noFaults, append_episodes_documents]
              simp [decode_assigned_id E _ hid]
            · simp [NilObjectID]
      · simp only [hid, if_false] at hone
        split at hone
        · cases hone
        · split at hone
          · cases hone
          · simp only [Except.ok.injEq, Prod.mk.injEq] at hone
            obtain ⟨h1, h2⟩ := hone
            subst h1
            subst h2
            refine ⟨_, E, getData_noFaults _, ?_, rfl, rfl, rfl, rfl, fun _ => rfl, hid, rfl⟩
            rw [getData_noFaults, append_episodes_documents]
            simp [decode_marshal_episode]

theorem stored_episode_round_trip_witness :
    InsertMany noFaults {} "episodes" [Episode.marshal { Title := "Episode One" }]
        = .ok ([Bson.objectID 1],
            { database :=
                { podcasts := [],
                  episodes := [[("_id", Bson.objectID 1), ("title", Bson.str "Episode One")]] },
              objectIDCounter := 1 }) ∧
    ∃ (old : List Episode) (E' : Episode),
      getData noFaults ((({} : World).database).Collection "episodes") = .ok old ∧
      getData noFaults
          (({ podcasts := [],
              episodes := [[("_id", Bson.objectID 1), ("title", Bson.str "Episode One")]] }
            : Database).Collection "episodes") = .ok (old ++ [E']) ∧
      E'.Podcast = ({ Title := "Episode One" } : Episode).Podcast ∧
      E'.Title = ({ Title := "Episode One" } : Episode).Title ∧
      E'.Description = ({ Title := "Episode One" } : Episode).Description ∧
      E'.Duration = ({ Title := "Episode One" } : Episode).Duration ∧
      (({ Title := "Episode One" } : Episode).ID ≠ NilObjectID →
        E'.ID = ({ Title := "Episode One" } : Episode).ID) ∧
      E'.ID ≠ NilObjectID ∧ [Bson.objectID 1] = [Bson.objectID E'.ID] :=
  ⟨rfl, stored_episode_round_trip {} _ { Title := "Episode One" } [Bson.objectID 1] rfl⟩

/-- C5, as stated, fails: the only episode of `untitledStore` has no title, so
its document and the join document made from it lack `title`, and
`getDataPodcastEpisode` returns that entry with an empty title instead of
failing. -/
theorem missing_title_is_not_an_error :
    untitledStore.database.episodes
      = [[("_id", Bson.objectID 2), ("podcast", Bson.objectID 1),
          ("description", Bson.str "no title"), ("duration", Bson.int32 3)]] ∧
    getDataAggregated noFaults untitledStore.episodesCollection
      = .ok [[("_id", Bson.objectID 2),
              ("podcast", Bson.doc [("_id", Bson.objectID 1),
                ("title", Bson.str "My Awesome Podcast"), ("author", Bson.str "Bruno")]),
              ("description", Bson.str "no title"), ("duration", Bson.int32 3)]] ∧
    getField [("_id", Bson.objectID 2),
              ("podcast", Bson.doc [("_id", Bson.objectID 1),
                ("title", Bson.str "My Awesome Podcast"), ("author", Bson.str "Bruno")]),
              ("description", Bson.str "no title"), ("duration", Bson.int32 3)] "title" = none ∧
    getDataPodcastEpisode noFaults untitledStore.episodesCollection
      = .ok [{ ID := 2,
               Podcast := { ID := 1, Title := "My Awesome Podcast", Author := "Bruno" },
               Title := "", Description := "no title", Duration := 3 }] := by
  refine ⟨by rfl, by rfl, by rfl, by rfl⟩

/-- C5, amended: when some document of the join output cannot be decoded into
`PodcastEpisode`, `getDataPodcastEpisode` fails as a whole with a decode error
and returns no entry, whatever the other documents are.  Lacking `title`,
`description` or `duration` is not such a case: a document in which no element
names the field is decoded with the zero value there, and on every store state
of the data model, where a zero title, description or duration is left out of
the stored document, `getDataPodcastEpisode` succeeds and returns, for every
episode and the stored podcast it refers to, the entry with the episode's own
title, description and duration. -/
theorem typed_join_fails_on_undecodable (db : Database) (gs : List Doc)
    (hgs : getDataAggregated noFaults (db.Collection "episodes") = .ok gs)
    (hbad : ∃ g ∈ gs, ∃ err, PodcastEpisode.Decode g = .error err) :
    getDataPodcastEpisode noFaults (db.Collection "episodes") = .error Error.decode ∧
    (∀ (g : Doc) (t : PodcastEpisode), PodcastEpisode.Decode g = .ok t →
      ((∀ kv ∈ g, keyNames kv.1 "title" = false) → t.Title = "") ∧
      ((∀ kv ∈ g, keyNames kv.1 "description" = false) → t.Description = "") ∧
      ((∀ kv ∈ g, keyNames kv.1 "duration" = false) → t.Duration = 0)) ∧
    (∀ s : Store, ∃ ts : List PodcastEpisode,
      getDataPodcastEpisode noFaults s.episodesCollection = .ok ts ∧
      ∀ E ∈ s.episodes, ∀ P ∈ s.podcasts, P.ID = E.Podcast →
        ({ ID := E.ID, Podcast := P, Title := E.Title, Description := E.Description,
           Duration := E.Duration } : PodcastEpisode) ∈ ts) := by
  rw [getDataAggregated_eq noFaults _ rfl, openCursor_noFaults] at hgs
  simp only [Cursor.All, decodeAll_decodeM, Except.ok.injEq] at hgs
  refine ⟨?_, fun g t ht => ?_, fun s => ?_⟩
  · rw [getDataPodcastEpisode_eq noFaults _ rfl, openCursor_noFaults, hgs]
    obtain ⟨d, _, err, herr, hall⟩ := decodeAll_error PodcastEpisode.Decode gs hbad
    have : err = Error.decode := podcastEpisode_decode_error d err herr
    subst this
    simp [Cursor.All, hall]
  · have hel := decodeStruct_ok _ _ _ _ ht
    exact ⟨fun hnone => decodeElements_keeps _ (fun v => v.Title) "title"
              decodeField_keeps_title g {} t hnone hel,
           fun hnone => decodeElements_keeps _ (fun v => v.Description) "description"
              decodeField_keeps_description g {} t hnone hel,
           fun hnone => decodeElements_keeps _ (fun v => v.Duration) "duration"
              decodeField_keeps_duration g {} t hnone hel⟩
  · refine ⟨_, getDataPodcastEpisode_store s, fun E hE P hP hid => ?_⟩
    exact List.mem_flatMap.mpr ⟨E, hE, List.mem_map.mpr
      ⟨P, List.mem_filter.mpr ⟨hP, decide_eq_true hid⟩, rfl⟩⟩

theorem typed_join_fails_on_undecodable_witness :
    getDataAggregated noFaults (brokenEpisodes.Collection "episodes")
        = .ok [[("_id", Bson.objectID 2),
                ("podcast", Bson.doc [("_id", Bson.objectID 1), ("title", Bson.str "P")]),
                ("title", Bson.str "One"), ("duration", Bson.int32 1)],
               [("_id", Bson.objectID 3),
                ("podcast", Bson.doc [("_id", Bson.objectID 1), ("title", Bson.str "P")]),
                ("duration", Bson.str "long"), ("title", Bson.str "Two")]] ∧
    PodcastEpisode.Decode
        [("_id", Bson.objectID 3),
         ("podcast", Bson.doc [("_id", Bson.objectID 1), ("title", Bson.str "P")]),
         ("duration", Bson.str "long"), ("title", Bson.str "Two")]
      = .error Error.decode ∧
    getDataPodcastEpisode noFaults (brokenEpisodes.Collection "episodes")
      = .error Error.decode ∧
    (∀ (g : Doc) (t : PodcastEpisode), PodcastEpisode.Decode g = .ok t →
      ((∀ kv ∈ g, keyNames kv.1 "title" = false) → t.Title = "") ∧
      ((∀ kv ∈ g, keyNames kv.1 "description" = false) → t.Description = "") ∧
      ((∀ kv ∈ g, keyNames kv.1 "duration" = false) → t.Duration = 0)) ∧
    (∀ s : Store, ∃ ts : List PodcastEpisode,
      getDataPodcastEpisode noFaults s.episodesCollection = .ok ts ∧
      ∀ E ∈ s.episodes, ∀ P ∈ s.podcasts, P.ID = E.Podcast →
        ({ ID := E.ID, Podcast := P, Title := E.Title, Description := E.Description,
           Duration := E.Duration } : PodcastEpisode) ∈ ts) :=
  ⟨rfl, rfl,
    typed_join_fails_on_undecodable brokenEpisodes
      [[("_id", Bson.objectID 2),
        ("podcast", Bson.doc [("_id", Bson.objectID 1), ("title", Bson.str "P")]),
        ("title", Bson.str "One"), ("duration", Bson.int32 1)],
       [("_id", Bson.objectID 3),
        ("podcast", Bson.doc [("_id", Bson.objectID 1), ("title", Bson.str "P")]),
        ("duration", Bson.str "long"), ("title", Bson.str "Two")]]
      rfl
      ⟨[("_id", Bson.objectID 3),
        ("podcast", Bson.doc [("_id", Bson.objectID 1), ("title", Bson.str "P")]),
        ("duration", Bson.str "long"), ("title", Bson.str "Two")],
       List.mem_cons_of_mem _ (List.mem_cons_self _ _), Error.decode, rfl⟩⟩

/-- C6: whatever the database and whatever goes wrong on the way, when
`getDataPodcastEpisode` returns a result then `getDataAggregated`, run in the
same circumstances on the same collection, returns one too, both have the same
length, and the i-th typed entry is the `PodcastEpisode` decoding of the i-th
generic document. -/
theorem typed_result_decodes_generic (net : Faults) (c : Collection) (ts : List PodcastEpisode)
    (h : getDataPodcastEpisode net c = .ok ts) :
    ∃ gs : List Doc, getDataAggregated net c = .ok gs ∧ ts.length = gs.length ∧
      ∀ (i : Nat) (g : Doc), gs[i]? = some g →
        ∃ t, ts[i]? = some t ∧ PodcastEpisode.Decode g = .ok t := by
  simp only [getDataPodcastEpisode] at h
  simp only [getDataAggregated]
  cases hA : Aggregate net c
      [[("$lookup", Bson.doc [("from", Bson.str "podcasts"), ("localField", Bson.str "podcast"),
          ("foreignField", Bson.str "_id"), ("as", Bson.str "podcast")])],
       [("$unwind", Bson.doc [("path", Bson.str "$podcast"),
          ("preserveNullAndEmptyArrays", Bson.bool false)])]] with
  | error err => simp [hA] at h
  | ok cursor =>
      simp only [hA] at h
      obtain ⟨hdec, herr⟩ := All_ok cursor _ ts h
      have hf := decodeAll_forall₂ _ _ _ hdec
      refine ⟨cursor.yields, ?_, hf.length_eq.symm, ?_⟩
      · simp [Cursor.All, decodeAll_decodeM, herr]
      · intro i g hg
        have hi : i < cursor.yields.length := by
          rcases Nat.lt_or_ge i cursor.yields.length with hlt | hge
          · exact hlt
          · rw [List.getElem?_eq_none hge] at hg; cases hg
        have hi' : i < ts.length := hf.length_eq ▸ hi
        refine ⟨ts[i], List.getElem?_eq_getElem hi', ?_⟩
        have hg' : cursor.yields[i] = g := by
          rw [List.getElem?_eq_getElem hi] at hg
          exact Option.some.inj hg
        rw [← hg']
        exact (List.forall₂_iff_get.mp hf).2 i hi hi'

theorem typed_result_decodes_generic_witness :
    getDataPodcastEpisode noFaults (scenarioStore 0).episodesCollection
        = .ok [{ ID := 2,
                 Podcast := { ID := 1, Title := "My Awesome Podcast", Author := "Bruno",
                              Tags := ["test", "demo"] },
                 Title := "Episode One", Description := "My Awesome Episode One",
                 Duration := 1 },
               { ID := 3,
                 Podcast := { ID := 1, Title := "My Awesome Podcast", Author := "Bruno",
                              Tags := ["test", "demo"] },
                 Title := "Episode Two", Description := "My Awesome Episode Two",
                 Duration := 2 }] ∧
    ∃ gs : List Doc,
      getDataAggregated noFaults (scenarioStore 0).episodesCollection = .ok gs ∧
      ([{ ID := 2,
          Podcast := { ID := 1, Title := "My Awesome Podcast", Author := "Bruno",
                       Tags := ["test", "demo"] },
          Title := "Episode One", Description := "My Awesome Episode One", Duration := 1 },
        { ID := 3,
          Podcast := { ID := 1, Title := "My Awesome Podcast", Author := "Bruno",
                       Tags := ["test", "demo"] },
          Title := "Episode Two", Description := "My Awesome Episode Two",
          Duration := 2 }] : List PodcastEpisode).length = gs.length ∧
      ∀ (i : Nat) (g : Doc), gs[i]? = some g →
        ∃ t,
          ([{ ID := 2,
              Podcast := { ID := 1, Title := "My Awesome Podcast", Author := "Bruno",
                           Tags := ["test", "demo"] },
              Title := "Episode One", Description := "My Awesome Episode One", Duration := 1 },
            { ID := 3,
              Podcast := { ID := 1, Title := "My Awesome Podcast", Author := "Bruno",
                           Tags := ["test", "demo"] },
              Title := "Episode Two", Description := "My Awesome Episode Two",
              Duration := 2 }] : List PodcastEpisode)[i]? = some t ∧
          PodcastEpisode.Decode g = .ok t :=
  ⟨rfl, typed_result_decodes_generic noFaults (scenarioStore 0).episodesCollection _ rfl⟩

/-- C7: when the `episodes` collection holds no document and the find request
itself goes through, `getData` completes without error and its result is the
empty sequence. -/
theorem getData_empty_collection (net : Faults) (db : Database)
    (hreq : net.request = false) (hempty : db.episodes = []) :
    getData net (db.Collection "episodes") = .ok [] := by
  rw [getData_eq net _ hreq]
  have hdocs : (db.Collection "episodes").documents = [] := by
    simp [Database.Collection, Collection.documents, Database.documents, hempty]
  rw [hdocs]
  cases hc : net.cursor <;> simp [openCursor, hc]

theorem getData_empty_collection_witness :
    noFaults.request = false ∧ ({} : Database).episodes = [] ∧
    getData noFaults (({} : Database).Collection "episodes") = .ok [] :=
  ⟨rfl, rfl, getData_empty_collection noFaults {} rfl rfl⟩

/-- C8: starting from an empty database, `addData` succeeds and leaves the
store state `scenarioStore n`: the podcast "My Awesome Podcast" by "Bruno" with
tags "test" and "demo" under the identity it was assigned, and the episodes
"Episode One" (duration 1) and "Episode Two" (duration 2) that refer to that
identity.  There `getData` returns exactly those two episodes, and
`getDataAggregated` and `getDataPodcastEpisode` each return exactly two entries,
both embedding the podcast titled "My Awesome Podcast". -/
theorem addData_scenario (n : Nat) :
    addData noFaults { database := {}, objectIDCounter := n }
      = .ok { database := (scenarioStore n).database, objectIDCounter := n + 3 } ∧
    getData noFaults ((scenarioStore n).database.Collection "episodes")
      = .ok [{ ID := n + 2, Podcast := n + 1, Title := "Episode One",
               Description := "My Awesome Episode One", Duration := 1 },
             { ID := n + 3, Podcast := n + 1, Title := "Episode Two",
               Description := "My Awesome Episode Two", Duration := 2 }] ∧
    getDataAggregated noFaults ((scenarioStore n).database.Collection "episodes")
      = .ok [[("_id", Bson.objectID (n + 2)),
              ("podcast", Bson.doc [("_id", Bson.objectID (n + 1)),
                ("title", Bson.str "My Awesome Podcast"), ("author", Bson.str "Bruno"),
                ("tags", Bson.arr [Bson.str "test", Bson.str "demo"])]),
              ("title", Bson.str "Episode One"),
              ("description", Bson.str "My Awesome Episode One"),
              ("duration", Bson.int32 1)],
             [("_id", Bson.objectID (n + 3)),
              ("podcast", Bson.doc [("_id", Bson.objectID (n + 1)),
                ("title", Bson.str "My Awesome Podcast"), ("author", Bson.str "Bruno"),
                ("tags", Bson.arr [Bson.str "test", Bson.str "demo"])]),
              ("title", Bson.str "Episode Two"),
              ("description", Bson.str "My Awesome Episode Two"),
              ("duration", Bson.int32 2)]] ∧
    getDataPodcastEpisode noFaults ((scenarioStore n).database.Collection "episodes")
      = .ok [{ ID := n + 2,
               Podcast := { ID := n + 1, Title := "My Awesome Podcast", Author := "Bruno",
                            Tags := ["test", "demo"] },
               Title := "Episode One", Description := "My Awesome Episode One", Duration := 1 },
             { ID := n + 3,
               Podcast := { ID := n + 1, Title := "My Awesome Podcast", Author := "Bruno",
                            Tags := ["test", "demo"] },
               Title := "Episode Two", Description := "My Awesome Episode Two",
               Duration := 2 }] := by
  refine ⟨?_, ?_, ?_, ?_⟩
  · simp [addData, InsertOne, InsertMany, Podcast.marshal, Episode.marshal, omitempty, getField,
      Database.documents, Database.append, NilObjectID, noFaults, Bson.beq, scenarioStore,
      Store.database]
  · exact getData_store _
  · refine (getDataAggregated_store _).trans ?_
    simp [scenarioStore, Episode.marshal, Podcast.marshal, omitempty, setField, NilObjectID]
  · refine (getDataPodcastEpisode_store _).trans ?_
    simp [scenarioStore, joined]

/-- C9: the filter of `getData`, the encoding of `Episode{}`, is the empty
document, which every document satisfies; so the result of `getData` is the
sequence of what `Decode` leaves in an `Episode` for each document of the
`episodes` collection, one entry per document, in collection order. -/
theorem getData_decodes_every_document (db : Database) :
    Episode.marshal {} = [] ∧
    (∀ d : Doc, filterMatches (Episode.marshal {}) d = true) ∧
    getData noFaults (db.Collection "episodes")
      = .ok (db.episodes.map (fun d => (Episode.Decode d).1)) := by
  refine ⟨marshal_zero_episode, fun d => ?_, ?_⟩
  · rw [marshal_zero_episode]; exact filterMatches_nil d
  · rw [getData_eq noFaults _ rfl, openCursor_noFaults]
    simp [Database.Collection, Collection.documents, Database.documents]

/-- C10: both join results exist, and every entry of them comes from a stored
episode `E` whose reference survives as the identity of the embedded podcast.  A
generic entry is the document of `E` with a podcast document written under
`podcast`, in place of the reference; the `_id` of that podcast document is the
reference `E` held, and the `_id` of the entry is still that of `E`.  A typed
entry has the identity of `E`, and the identity of its podcast is the reference
of `E`. -/
theorem join_keeps_reference (s : Store) :
    ∃ (gs : List Doc) (ts : List PodcastEpisode),
      getDataAggregated noFaults s.episodesCollection = .ok gs ∧
      getDataPodcastEpisode noFaults s.episodesCollection = .ok ts ∧
      (∀ g ∈ gs, ∃ E ∈ s.episodes, ∃ pd : Doc,
        g = setField E.marshal "podcast" (Bson.doc pd) ∧
        getField g "podcast" = some (Bson.doc pd) ∧
        fieldOrNull pd "_id" = fieldOrNull E.marshal "podcast" ∧
        getField g "_id" = getField E.marshal "_id") ∧
      (∀ t ∈ ts, ∃ E ∈ s.episodes, t.Podcast.ID = E.Podcast ∧ t.ID = E.ID) := by
  refine ⟨_, _, getDataAggregated_store s, getDataPodcastEpisode_store s, ?_, ?_⟩
  · intro g hg
    obtain ⟨E, hE, hg'⟩ := List.mem_flatMap.mp hg
    obtain ⟨P, hP, rfl⟩ := List.mem_map.mp hg'
    have hid : P.ID = E.Podcast := of_decide_eq_true (List.mem_filter.mp hP).2
    refine ⟨E, hE, P.marshal, rfl, getField_setField _ _ _, ?_,
      getField_setField_ne _ _ _ _ (by decide)⟩
    rw [fieldOrNull_podcast_id, fieldOrNull_episode_podcast, hid]
  · intro t ht
    obtain ⟨E, hE, ht'⟩ := List.mem_flatMap.mp ht
    obtain ⟨P, hP, rfl⟩ := List.mem_map.mp ht'
    exact ⟨E, hE, of_decide_eq_true (List.mem_filter.mp hP).2, rfl⟩

end MongoAggregation
